import Mathlib

/-!
# HTTP/2 connection bridge of libmicrohttpd (`src/microhttpd/connection_http2.c`)

A shallow embedding of the stream registry (the intrusive doubly linked list of
`struct http2_stream_data` hanging off `struct http2_conn`), of the nghttp2
callbacks and of the connection entry points, followed by the properties
established about them.

Modelling conventions.

* The C heap is a map from addresses to typed objects.  A pointer is an address,
  `NULL` is `none`.  The sentinel `h2->head` is embedded in `struct http2_conn`;
  its address `&h2->head` is represented by the address of the enclosing
  `http2_conn`, so a `struct http2_stream_data *` may designate either a
  malloc-ed record or the sentinel of a connection object.
* Every function returns `Except Fault _`.  `Fault.invalid_access` stands for
  what C leaves undefined: reading or writing through `NULL` or through a
  pointer to a released (or wrongly typed) object, and releasing an object
  that is not live.  `Fault.out_of_fuel` is produced only by the bounded
  unrolling of the one unbounded loop (`http2_session_delete`).
* The framing engine (nghttp2) is an external library.  Its per-stream user
  data table is modelled concretely (it is plain storage); the calls whose
  outcome depends on the wire protocol (`nghttp2_session_mem_recv`,
  `nghttp2_session_send`, `nghttp2_submit_*`, `nghttp2_session_want_*`) are
  taken from an `Engine` parameter.  The engine acts on the heap only.
* Calls that release resources or cross the boundary to the engine or to the
  host are appended to `State.trace`, so that "exactly once" and "in this
  order" can be stated.  Diagnostic output (`ENTER`, `printf`, `warnx`) is not
  modelled.
* The callbacks are translated as written: `on_frame_recv_callback`,
  `on_begin_headers_callback` and `on_stream_close_callback` read their
  `user_data` argument as a `struct http2_conn *`, `send_callback` reads it as
  the `struct MHD_Connection *`.  Which pointer `http2_init_session` registers
  with the engine is outside the properties stated here.
-/

namespace MHD

/-! ## Data model -/

/-- Abnormal outcomes of the model. -/
inductive Fault
  | invalid_access
  | out_of_fuel
deriving DecidableEq, Repr

/-- The fields of `struct http2_stream_data` used by `connection_http2.c`. -/
structure http2_stream_data where
  stream_id : Int
  next : Option Nat
  prev : Option Nat
deriving DecidableEq, Repr

/-- The fields of `struct http2_conn` used by `connection_http2.c`:
the engine handle and the embedded list sentinel. -/
structure http2_conn where
  session : Option Nat
  head : http2_stream_data
deriving DecidableEq, Repr

/-- The part of an nghttp2 session that the callbacks read and write directly:
the per-stream user data pointer
(`nghttp2_session_get_stream_user_data` / `nghttp2_session_set_stream_user_data`). -/
structure nghttp2_session where
  stream_user_data : Int → Option Nat

/-- A heap object. -/
inductive Obj
  | conn (c : http2_conn)
  | stream (s : http2_stream_data)
  | session (s : nghttp2_session)

/-- The heap: address to live object. -/
abbrev Heap := Nat → Option Obj

/-- Calls that are observable from outside the bridge. -/
inductive Event
  | free (p : Nat)
  | nghttp2_session_del (s : Nat)
  | nghttp2_submit_response (s : Nat) (stream_id : Int)
  | nghttp2_submit_settings (s : Nat)
  | nghttp2_session_send (s : Nat)
  | nghttp2_session_mem_recv (s : Nat) (data : List Nat)
  | send_cls (data : List Nat)
  | close_indeterminate_fd
deriving DecidableEq, Repr

/-- The fields of `struct MHD_Connection` used by `connection_http2.c`.
`send_cls` is the host's raw send primitive: given the bytes it returns the
number of bytes it accepted (or a negative value). -/
structure MHD_Connection where
  h2 : Option Nat
  read_buffer : Nat
  read_buffer_size : Nat
  read_buffer_offset : Nat
  suspended : Bool
  tls_state : Nat
  in_idle : Bool
  send_cls : List Nat → Int

/-- The state a call runs in. `pool` is the byte memory the read buffer points into. -/
structure State where
  connection : MHD_Connection
  heap : Heap
  pool : Nat → Nat
  trace : List Event

/-- The frame header (`nghttp2_frame_hd`) and the `headers.cat` member of `nghttp2_frame`. -/
structure nghttp2_frame where
  type : Nat
  flags : Nat
  stream_id : Int
  headers_cat : Nat

/-- Constants of `nghttp2.h` and of the libmicrohttpd headers, which are not part of
the translated file.  `connection_http2.c` is translated for any values. -/
structure Consts where
  NGHTTP2_DATA : Nat
  NGHTTP2_HEADERS : Nat
  NGHTTP2_FLAG_END_STREAM : Nat
  NGHTTP2_HCAT_REQUEST : Nat
  NGHTTP2_ERR_CALLBACK_FAILURE : Int
  MHD_YES : Int
  MHD_NO : Int
  MHD_TLS_CONN_NO_TLS : Nat
  MHD_TLS_CONN_INIT : Nat
  MHD_TLS_CONN_CONNECTED : Nat
  HTTPS_SUPPORT : Bool

/-- The values the constants have in nghttp2 and libmicrohttpd
(`FRAME_TYPE` in the translated file agrees on `DATA = 0`, `HEADERS = 1`). -/
def std_consts : Consts where
  NGHTTP2_DATA := 0
  NGHTTP2_HEADERS := 1
  NGHTTP2_FLAG_END_STREAM := 1
  NGHTTP2_HCAT_REQUEST := 0
  NGHTTP2_ERR_CALLBACK_FAILURE := -902
  MHD_YES := 1
  MHD_NO := 0
  MHD_TLS_CONN_NO_TLS := 0
  MHD_TLS_CONN_INIT := 1
  MHD_TLS_CONN_CONNECTED := 3
  HTTPS_SUPPORT := true

/-- The protocol-dependent part of the framing engine.  Each function receives the
heap and the session handle; `nghttp2_session_send` and `nghttp2_session_mem_recv` may run
callbacks and so return a new heap. -/
structure Engine where
  nghttp2_submit_response : Heap → Nat → Int → Int
  nghttp2_submit_settings : Heap → Nat → Int
  nghttp2_session_send : Heap → Nat → Int × Heap
  nghttp2_session_mem_recv : Heap → Nat → List Nat → Int × Heap
  nghttp2_session_want_read : Heap → Nat → Int
  nghttp2_session_want_write : Heap → Nat → Int

/-! ## Heap access -/

/-- Dereference of a pointer that may be `NULL`. -/
def deref (p : Option Nat) : Except Fault Nat :=
  match p with
  | some a => pure a
  | none => throw Fault.invalid_access

/-- Read through a `struct http2_conn *`. -/
def load_conn (h : Heap) (p : Nat) : Except Fault http2_conn :=
  match h p with
  | some (Obj.conn c) => pure c
  | _ => throw Fault.invalid_access

/-- Read through a `struct http2_stream_data *` (a record, or the sentinel of a connection). -/
def load_sd (h : Heap) (p : Nat) : Except Fault http2_stream_data :=
  match h p with
  | some (Obj.stream s) => pure s
  | some (Obj.conn c) => pure c.head
  | _ => throw Fault.invalid_access

/-- Write through a `struct http2_stream_data *`. -/
def store_sd (h : Heap) (p : Nat) (v : http2_stream_data) : Except Fault Heap :=
  match h p with
  | some (Obj.stream _) => pure (Function.update h p (some (Obj.stream v)))
  | some (Obj.conn c) => pure (Function.update h p (some (Obj.conn { c with head := v })))
  | _ => throw Fault.invalid_access

/-- The assignment `p->next = v`. -/
def set_next (h : Heap) (p : Nat) (v : Option Nat) : Except Fault Heap := do
  let sd ← load_sd h p
  store_sd h p { sd with next := v }

/-- The assignment `p->prev = v`. -/
def set_prev (h : Heap) (p : Nat) (v : Option Nat) : Except Fault Heap := do
  let sd ← load_sd h p
  store_sd h p { sd with prev := v }

/-- The assignment `p->stream_id = v`. -/
def set_stream_id (h : Heap) (p : Nat) (v : Int) : Except Fault Heap := do
  let sd ← load_sd h p
  store_sd h p { sd with stream_id := v }

/-- Read through a `nghttp2_session *`. -/
def load_session (h : Heap) (s : Nat) : Except Fault nghttp2_session :=
  match h s with
  | some (Obj.session e) => pure e
  | _ => throw Fault.invalid_access

/-- The C library `free` on a non-null pointer. -/
def free (st : State) (p : Nat) : Except Fault State :=
  match st.heap p with
  | some _ =>
    pure { st with heap := Function.update st.heap p none, trace := st.trace ++ [Event.free p] }
  | none => throw Fault.invalid_access

/-! ## Engine storage -/

/-- Model of `nghttp2_session_get_stream_user_data`. -/
def nghttp2_session_get_stream_user_data (h : Heap) (session : Nat) (stream_id : Int) :
    Except Fault (Option Nat) := do
  let e ← load_session h session
  pure (e.stream_user_data stream_id)

/-- Model of `nghttp2_session_set_stream_user_data` for a stream the engine knows
(the only use is inside the headers-begun callback of that stream). -/
def nghttp2_session_set_stream_user_data (h : Heap) (session : Nat) (stream_id : Int)
    (p : Option Nat) : Except Fault Heap := do
  let e ← load_session h session
  pure (Function.update h session
    (some (Obj.session { stream_user_data := Function.update e.stream_user_data stream_id p })))

/-- Model of `nghttp2_session_del`: does nothing on `NULL`, otherwise releases the session. -/
def nghttp2_session_del (st : State) (session : Option Nat) : Except Fault State :=
  match session with
  | none => pure st
  | some s =>
    match st.heap s with
    | some (Obj.session _) =>
      pure { st with heap := Function.update st.heap s none,
                     trace := st.trace ++ [Event.nghttp2_session_del s] }
    | _ => throw Fault.invalid_access

/-! ## Stream registry (`add_stream`, `remove_stream`, lines 58-121) -/

/-- Translation of `add_stream`. -/
def add_stream (h : Heap) (h2 stream_data : Nat) : Except Fault Heap := do
  let c ← load_conn h h2
  let h ← set_next h stream_data c.head.next
  let _ ← load_conn h h2
  let h ← set_next h h2 (some stream_data)
  let h ← set_prev h stream_data (some h2)
  let sd ← load_sd h stream_data
  match sd.next with
  | some n => set_prev h n (some stream_data)
  | none => pure h

/-- Translation of `remove_stream` (the connection argument is unused in the source). -/
def remove_stream (h : Heap) (_h2 stream_data : Nat) : Except Fault Heap := do
  let sd ← load_sd h stream_data
  let pv ← deref sd.prev
  let h ← set_next h pv sd.next
  let sd ← load_sd h stream_data
  match sd.next with
  | some n => set_prev h n sd.prev
  | none => pure h

/-- Translation of `create_http2_stream_data`. `malloc` is the pointer the allocator
returns for this call (`none` when allocation fails). -/
def create_http2_stream_data (st : State) (malloc : Option Nat) (h2 : Nat) (stream_id : Int) :
    Except Fault (Option Nat × State) :=
  match malloc with
  | none => pure (none, st)
  | some a => do
    let h := Function.update st.heap a
      (some (Obj.stream { stream_id := 0, next := none, prev := none }))
    let h ← set_stream_id h a stream_id
    let h ← add_stream h h2 a
    pure (some a, { st with heap := h })

/-- Translation of `delete_http2_stream_data`. -/
def delete_http2_stream_data (st : State) (stream_data : Nat) : Except Fault State :=
  free st stream_data

/-! ## Frame event handlers (lines 123-306) -/

/-- The conversion `(ssize_t) length` of a `size_t` (64-bit two's complement). -/
def to_ssize_t (n : Nat) : Int :=
  if n % 2 ^ 64 < 2 ^ 63 then ((n % 2 ^ 64 : Nat) : Int) else ((n % 2 ^ 64 : Nat) : Int) - 2 ^ 64

/-- Translation of `send_response`: one call of `nghttp2_submit_response`. -/
def send_response (E : Engine) (st : State) (session : Nat) (stream_id : Int) :
    Except Fault (Int × State) := do
  let _ ← load_session st.heap session
  let rv := E.nghttp2_submit_response st.heap session stream_id
  let st := { st with trace := st.trace ++ [Event.nghttp2_submit_response session stream_id] }
  if rv ≠ 0 then pure (-1, st) else pure (0, st)

/-- Translation of `send_callback`: the bytes go to `connection->send_cls`, whose
result is not used; the function returns `(ssize_t) length`. -/
def send_callback (st : State) (data : List Nat) : Except Fault (Int × State) :=
  let _accepted := st.connection.send_cls data
  pure (to_ssize_t data.length, { st with trace := st.trace ++ [Event.send_cls data] })

/-- Translation of `on_request_recv`. On failure of `send_response` the source calls
`close (fd)` on a variable that was never assigned. -/
def on_request_recv (K : Consts) (E : Engine) (st : State) (session : Nat) (_h2 : Nat)
    (stream_data : Nat) : Except Fault (Int × State) := do
  let sd ← load_sd st.heap stream_data
  let (rv, st) ← send_response E st session sd.stream_id
  if rv ≠ 0 then
    pure (K.NGHTTP2_ERR_CALLBACK_FAILURE,
      { st with trace := st.trace ++ [Event.close_indeterminate_fd] })
  else pure (0, st)

/-- Translation of `on_frame_recv_callback`. -/
def on_frame_recv_callback (K : Consts) (E : Engine) (st : State) (session : Nat)
    (frame : nghttp2_frame) (user_data : Nat) : Except Fault (Int × State) :=
  if frame.type = K.NGHTTP2_DATA ∨ frame.type = K.NGHTTP2_HEADERS then
    if frame.flags &&& K.NGHTTP2_FLAG_END_STREAM ≠ 0 then do
      let stream_data ← nghttp2_session_get_stream_user_data st.heap session frame.stream_id
      match stream_data with
      | none => pure (0, st)
      | some p => on_request_recv K E st session user_data p
    else pure (0, st)
  else pure (0, st)

/-- Translation of `on_begin_headers_callback`. `malloc` is the allocator's answer
should the callback allocate. -/
def on_begin_headers_callback (K : Consts) (st : State) (malloc : Option Nat) (session : Nat)
    (frame : nghttp2_frame) (user_data : Nat) : Except Fault (Int × State) :=
  if frame.type ≠ K.NGHTTP2_HEADERS ∨ frame.headers_cat ≠ K.NGHTTP2_HCAT_REQUEST then
    pure (0, st)
  else do
    let (stream_data, st) ← create_http2_stream_data st malloc user_data frame.stream_id
    let h ← nghttp2_session_set_stream_user_data st.heap session frame.stream_id stream_data
    pure (0, { st with heap := h })

/-- Translation of `on_header_callback`: the record is looked up and nothing else is done. -/
def on_header_callback (K : Consts) (st : State) (session : Nat) (frame : nghttp2_frame)
    (_name _value : List Nat) (_flags : Nat) (_user_data : Nat) : Except Fault (Int × State) :=
  if frame.type = K.NGHTTP2_HEADERS then
    if frame.headers_cat ≠ K.NGHTTP2_HCAT_REQUEST then pure (0, st)
    else do
      let _stream_data ← nghttp2_session_get_stream_user_data st.heap session frame.stream_id
      pure (0, st)
  else pure (0, st)

/-- Translation of `on_stream_close_callback`. -/
def on_stream_close_callback (st : State) (session : Nat) (stream_id : Int) (_error_code : Nat)
    (user_data : Nat) : Except Fault (Int × State) := do
  let stream_data ← nghttp2_session_get_stream_user_data st.heap session stream_id
  match stream_data with
  | none => pure (0, st)
  | some p =>
    let h ← remove_stream st.heap user_data p
    let st ← delete_http2_stream_data { st with heap := h } p
    pure (0, st)

/-! ## Session adapter and connection bridge (lines 354-579) -/

/-- The session handle of the connection object at `h2`, which the engine calls dereference. -/
def session_of (h : Heap) (h2 : Nat) : Except Fault Nat := do
  let c ← load_conn h h2
  let s ← deref c.session
  let _ ← load_session h s
  pure s

/-- Translation of `http2_send_server_connection_preface`. -/
def http2_send_server_connection_preface (E : Engine) (st : State) (h2 : Nat) :
    Except Fault (Int × State) := do
  let s ← session_of st.heap h2
  let rv := E.nghttp2_submit_settings st.heap s
  let st := { st with trace := st.trace ++ [Event.nghttp2_submit_settings s] }
  if rv ≠ 0 then pure (-1, st) else pure (0, st)

/-- Translation of `http2_session_send`. -/
def http2_session_send (E : Engine) (st : State) (h2 : Nat) : Except Fault (Int × State) := do
  let s ← session_of st.heap h2
  let r := E.nghttp2_session_send st.heap s
  let st := { st with heap := r.2, trace := st.trace ++ [Event.nghttp2_session_send s] }
  if r.1 ≠ 0 then pure (-1, st) else pure (0, st)

/-- The `datalen` bytes found at address `data` of the pool. -/
def bytes_at (pool : Nat → Nat) (data datalen : Nat) : List Nat :=
  (List.range datalen).map (fun i => pool (data + i))

/-- Translation of `http2_session_recv`. The `size_t` subtraction wraps modulo `2 ^ 64`;
`mhd_assert` compiles to nothing in a release build. -/
def http2_session_recv (E : Engine) (st : State) : Except Fault (Int × State) :=
  if 0 = st.connection.read_buffer_offset then pure (-1, st)
  else do
    let datalen := st.connection.read_buffer_offset
    let data := st.connection.read_buffer
    let st := { st with connection := { st.connection with
      read_buffer := st.connection.read_buffer + datalen,
      read_buffer_size := (st.connection.read_buffer_size + 2 ^ 64 - datalen) % 2 ^ 64,
      read_buffer_offset := st.connection.read_buffer_offset - datalen } }
    let h2 ← deref st.connection.h2
    let s ← session_of st.heap h2
    let bytes := bytes_at st.pool data datalen
    let r := E.nghttp2_session_mem_recv st.heap s bytes
    let st := { st with heap := r.2, trace := st.trace ++ [Event.nghttp2_session_mem_recv s bytes] }
    if r.1 < 0 then pure (-1, st)
    else do
      let (rv, st) ← http2_session_send E st h2
      if rv ≠ 0 then pure (-1, st) else pure (0, st)

/-- The loop of `http2_session_delete`: the successor is read, then the record is released. -/
def delete_streams : Nat → State → Option Nat → Except Fault State
  | 0, _, _ => throw Fault.out_of_fuel
  | _ + 1, st, none => pure st
  | fuel + 1, st, some stream_data => do
    let sd ← load_sd st.heap stream_data
    let next := sd.next
    let st ← delete_http2_stream_data st stream_data
    delete_streams fuel st next

/-- Translation of `http2_session_delete`. `connection->h2` is not written. -/
def http2_session_delete (fuel : Nat) (st : State) : Except Fault State := do
  let h2 ← deref st.connection.h2
  let c ← load_conn st.heap h2
  let st ← nghttp2_session_del st c.session
  let c ← load_conn st.heap h2
  let st ← delete_streams fuel st c.head.next
  free st h2

/-- Translation of `MHD_http2_send_preface`. -/
def MHD_http2_send_preface (K : Consts) (E : Engine) (fuel : Nat) (st : State) :
    Except Fault (Int × State) := do
  let h2 ← deref st.connection.h2
  let (rv, st) ← http2_send_server_connection_preface E st h2
  if rv ≠ 0 then do
    let st ← http2_session_delete fuel st
    pure (K.MHD_NO, st)
  else do
    let (rv, st) ← http2_session_send E st h2
    if rv ≠ 0 then do
      let st ← http2_session_delete fuel st
      pure (K.MHD_NO, st)
    else pure (K.MHD_YES, st)

/-- Translation of `http2_handle_read`. -/
def http2_handle_read (st : State) : Except Fault State := pure st

/-- Translation of `http2_handle_write`. -/
def http2_handle_write (E : Engine) (fuel : Nat) (st : State) : Except Fault State := do
  let h2 ← deref st.connection.h2
  let s ← session_of st.heap h2
  if E.nghttp2_session_want_read st.heap s = 0 ∧ E.nghttp2_session_want_write st.heap s = 0 then
    http2_session_delete fuel st
  else do
    let (rv, st) ← http2_session_send E st h2
    if rv ≠ 0 then http2_session_delete fuel st else pure st

/-- Translation of `http2_handle_idle`. The body of the `while` ends in an unconditional
`break`, so it runs at most once; the result of `http2_session_recv` is not used and the
function has no `return` statement. -/
def http2_handle_idle (K : Consts) (E : Engine) (st : State) : Except Fault State :=
  let st := { st with connection := { st.connection with in_idle := true } }
  if ! st.connection.suspended then
    if K.HTTPS_SUPPORT ∧ K.MHD_TLS_CONN_NO_TLS ≠ st.connection.tls_state ∧
        (K.MHD_TLS_CONN_INIT ≤ st.connection.tls_state ∧
          K.MHD_TLS_CONN_CONNECTED > st.connection.tls_state) then
      pure st
    else do
      let (_, st) ← http2_session_recv E st
      pure st
  else pure st

/-! ## Well-formed registries -/

/-- The chain starting at pointer `p`, whose first record must point back to `prev`, consists
of the records `l` (address and stream id, in list order) and ends in `NULL`. -/
def dll (h : Heap) : Nat → Option Nat → List (Nat × Int) → Bool
  | _, p, [] => p.isNone
  | prev, p, (a, i) :: l =>
    p == some a &&
      match h a with
      | some (Obj.stream s) => s.stream_id == i && s.prev == some prev && dll h a s.next l
      | _ => false

/-- The connection object at `c` is live, its engine session `s` is live, and its registry
holds exactly the records `l`. -/
def valid (h : Heap) (c s : Nat) (l : List (Nat × Int)) : Bool :=
  match h c with
  | some (Obj.conn cn) =>
    cn.session == some s &&
      (match h s with
        | some (Obj.session _) => true
        | _ => false) &&
      dll h c cn.head.next l
  | _ => false

/-- The records met when following `next` from pointer `p`, at most `fuel` of them. -/
def walk (h : Heap) : Nat → Option Nat → List (Nat × Int)
  | 0, _ => []
  | _, none => []
  | fuel + 1, some a =>
    match h a with
    | some (Obj.stream s) => (a, s.stream_id) :: walk h fuel s.next
    | _ => []

/-- The records reachable from the sentinel of the connection object at `c`. -/
def registry (h : Heap) (fuel : Nat) (c : Nat) : List (Nat × Int) :=
  match h c with
  | some (Obj.conn cn) => walk h fuel cn.head.next
  | _ => []

/-! ## Heaps written by the registry operations -/

/-- The heap after `create_http2_stream_data` has linked a fresh record `a` for `id`. -/
def linked (h : Heap) (c a : Nat) (id : Int) (cn : http2_conn) : Heap :=
  let h5 := Function.update (Function.update h c
      (some (Obj.conn { cn with head := { cn.head with next := some a } }))) a
      (some (Obj.stream { stream_id := id, next := cn.head.next, prev := some c }))
  match cn.head.next with
  | none => h5
  | some n =>
    match h n with
    | some (Obj.stream sn) => Function.update h5 n (some (Obj.stream { sn with prev := some a }))
    | _ => h5

/-- The record that precedes position `l1.length` of a chain hanging off `q`. -/
def pred : Nat → List (Nat × Int) → Nat
  | q, [] => q
  | _, (b, _) :: l => pred b l

/-- The object `o` with the `next` field of its stream data replaced. -/
def with_next (o : Option Obj) (v : Option Nat) : Option Obj :=
  match o with
  | some (Obj.stream s) => some (Obj.stream { s with next := v })
  | some (Obj.conn c) => some (Obj.conn { c with head := { c.head with next := v } })
  | _ => o

/-- The object `o` with the `prev` field of its stream data replaced. -/
def with_prev (o : Option Obj) (v : Option Nat) : Option Obj :=
  match o with
  | some (Obj.stream s) => some (Obj.stream { s with prev := v })
  | some (Obj.conn c) => some (Obj.conn { c with head := { c.head with prev := v } })
  | _ => o

/-- The heap after the record at `a` (contents `sa`, predecessor `pv`) has been unlinked
and released. -/
def unlinked (h : Heap) (a : Nat) (sa : http2_stream_data) (pv : Nat) : Heap := fun x =>
  if x = a then none
  else if sa.next = some x then with_prev (h x) (some pv)
  else if x = pv then with_next (h x) sa.next
  else h x

/-- The heap after teardown of the connection object at `c` with session `s` and records `l`. -/
def released (h : Heap) (c s : Nat) (l : List (Nat × Int)) : Heap := fun x =>
  if x = c ∨ x = s ∨ x ∈ l.map Prod.fst then none else h x

/-! ## Example states -/

/-- A table associating stream 1 with the record at 10 and stream 3 with the record at 11. -/
def ex_session : nghttp2_session where
  stream_user_data := fun i => if i = 1 then some 10 else if i = 3 then some 11 else none

/-- Connection object at 1, engine session at 2, and the registry after requests on
stream 1 (record at 10) and then stream 3 (record at 11) were begun. -/
def ex_heap : Heap := fun a =>
  if a = 1 then
    some (Obj.conn { session := some 2, head := { stream_id := 0, next := some 11, prev := none } })
  else if a = 2 then some (Obj.session ex_session)
  else if a = 11 then some (Obj.stream { stream_id := 3, next := some 10, prev := some 1 })
  else if a = 10 then some (Obj.stream { stream_id := 1, next := none, prev := some 11 })
  else none

/-- Connection object at 1 and engine session at 2 of a connection on which no request
has been begun yet: the registry is empty and the engine holds no user data. -/
def ex_fresh_heap : Heap := fun a =>
  if a = 1 then
    some (Obj.conn { session := some 2, head := { stream_id := 0, next := none, prev := none } })
  else if a = 2 then some (Obj.session { stream_user_data := fun _ => none })
  else none

/-- A plain-socket connection that is not suspended, with `k` bytes buffered at address 0
and a send primitive that accepts at most four bytes per call. -/
def ex_connection (k : Nat) : MHD_Connection where
  h2 := some 1
  read_buffer := 0
  read_buffer_size := 64
  read_buffer_offset := k
  suspended := false
  tls_state := 0
  in_idle := false
  send_cls := fun data => min 4 data.length

/-- The example state with `k` bytes buffered; byte `i` of the pool is `i`. -/
def ex_state (k : Nat) : State where
  connection := ex_connection k
  heap := ex_heap
  pool := fun i => i
  trace := []

/-- The example connection before its first request. -/
def ex_fresh_state : State where
  connection := ex_connection 0
  heap := ex_fresh_heap
  pool := fun i => i
  trace := []

/-- A HEADERS frame of category request on stream `i` (END_HEADERS set). -/
def ex_request (i : Int) : nghttp2_frame where
  type := 1
  flags := 4
  stream_id := i
  headers_cat := 0

/-- A HEADERS frame of category request on stream `i` with END_STREAM and END_HEADERS set. -/
def ex_last_frame (i : Int) : nghttp2_frame where
  type := 1
  flags := 5
  stream_id := i
  headers_cat := 0

/-- An engine that accepts every submission, reports `recv` from `nghttp2_session_mem_recv`
and `send` from `nghttp2_session_send`, wants to read and write, and runs no callbacks. -/
def ex_engine (recv send : Int) : Engine where
  nghttp2_submit_response := fun _ _ _ => 0
  nghttp2_submit_settings := fun _ _ => 0
  nghttp2_session_send := fun h _ => (send, h)
  nghttp2_session_mem_recv := fun h _ _ => (recv, h)
  nghttp2_session_want_read := fun _ _ => 1
  nghttp2_session_want_write := fun _ _ => 1

/-! ## Lemmas -/

@[simp]
theorem ok_bind {α β : Type} (a : α) (f : α → Except Fault β) :
    (Except.ok a >>= f) = f a := rfl

@[simp]
theorem error_bind {α β : Type} (e : Fault) (f : α → Except Fault β) :
    (Except.error e >>= f) = Except.error e := rfl

@[simp]
theorem pure_eq_ok {α : Type} (a : α) : (pure a : Except Fault α) = Except.ok a := rfl

@[simp]
theorem throw_eq_error {α : Type} (e : Fault) : (throw e : Except Fault α) = Except.error e := rfl

theorem load_sd_stream {h : Heap} {p : Nat} {s : http2_stream_data}
    (hp : h p = some (Obj.stream s)) : load_sd h p = Except.ok s := by
  simp [load_sd, hp]

theorem load_sd_conn {h : Heap} {p : Nat} {c : http2_conn}
    (hp : h p = some (Obj.conn c)) : load_sd h p = Except.ok c.head := by
  simp [load_sd, hp]

theorem set_next_stream {h : Heap} {p : Nat} {s : http2_stream_data} (v : Option Nat)
    (hp : h p = some (Obj.stream s)) :
    set_next h p v = Except.ok (Function.update h p (some (Obj.stream { s with next := v }))) := by
  simp [set_next, load_sd, store_sd, hp]

theorem set_next_conn {h : Heap} {p : Nat} {c : http2_conn} (v : Option Nat)
    (hp : h p = some (Obj.conn c)) :
    set_next h p v = Except.ok (Function.update h p
      (some (Obj.conn { c with head := { c.head with next := v } }))) := by
  simp [set_next, load_sd, store_sd, hp]

theorem set_prev_stream {h : Heap} {p : Nat} {s : http2_stream_data} (v : Option Nat)
    (hp : h p = some (Obj.stream s)) :
    set_prev h p v = Except.ok (Function.update h p (some (Obj.stream { s with prev := v }))) := by
  simp [set_prev, load_sd, store_sd, hp]

theorem dll_cons_iff (h : Heap) (q : Nat) (p : Option Nat) (a : Nat) (i : Int)
    (l : List (Nat × Int)) :
    dll h q p ((a, i) :: l) = true ↔
      p = some a ∧ ∃ s, h a = some (Obj.stream s) ∧ s.stream_id = i ∧ s.prev = some q ∧
        dll h a s.next l = true := by
  rw [dll]
  cases hh : h a with
  | none => simp
  | some o =>
    cases o with
    | conn c => simp
    | stream s => simp [and_assoc]
    | session e => simp

theorem dll_nil_iff (h : Heap) (q : Nat) (p : Option Nat) :
    dll h q p [] = true ↔ p = none := by
  simp [dll]

theorem dll_congr {h h' : Heap} : ∀ (l : List (Nat × Int)) (q : Nat) (p : Option Nat),
    (∀ x ∈ l.map Prod.fst, h' x = h x) → dll h' q p l = dll h q p l := by
  intro l
  induction l with
  | nil => intro q p _; simp [dll]
  | cons r l ih =>
    obtain ⟨a, i⟩ := r
    intro q p hx
    rw [dll, dll, hx a (by simp)]
    cases h a with
    | none => rfl
    | some o =>
      cases o with
      | conn c => rfl
      | session e => rfl
      | stream s =>
        simp only
        rw [ih a s.next (fun x hm => hx x (by simp at hm ⊢; exact Or.inr hm))]

theorem dll_live {h : Heap} : ∀ (l : List (Nat × Int)) (q : Nat) (p : Option Nat),
    dll h q p l = true → ∀ x ∈ l.map Prod.fst, ∃ s, h x = some (Obj.stream s) := by
  intro l
  induction l with
  | nil => intro q p _ x hm; simp at hm
  | cons r l ih =>
    obtain ⟨a, i⟩ := r
    intro q p hd x hm
    obtain ⟨_, s, hs, _, _, ht⟩ := (dll_cons_iff h q p a i l).1 hd
    simp only [List.map_cons, List.mem_cons] at hm
    rcases hm with rfl | hm
    · exact ⟨s, hs⟩
    · exact ih a s.next ht x hm

theorem dll_unique {h : Heap} : ∀ (l l' : List (Nat × Int)) (q q' : Nat) (p : Option Nat),
    dll h q p l = true → dll h q' p l' = true → l = l' := by
  intro l
  induction l with
  | nil =>
    intro l' q q' p h1 h2
    cases l' with
    | nil => rfl
    | cons r l' =>
      obtain ⟨a, i⟩ := r
      have hp := (dll_nil_iff h q p).1 h1
      obtain ⟨hp', _⟩ := (dll_cons_iff h q' p a i l').1 h2
      rw [hp] at hp'
      cases hp'
  | cons r l ih =>
    obtain ⟨a, i⟩ := r
    intro l' q q' p h1 h2
    obtain ⟨hp, s, hs, hi, _, ht⟩ := (dll_cons_iff h q p a i l).1 h1
    cases l' with
    | nil =>
      have hp' := (dll_nil_iff h q' p).1 h2
      rw [hp] at hp'
      cases hp'
    | cons r' l' =>
      obtain ⟨a', i'⟩ := r'
      obtain ⟨hp', s', hs', hi', _, ht'⟩ := (dll_cons_iff h q' p a' i' l').1 h2
      rw [hp] at hp'
      cases hp'
      rw [hs] at hs'
      cases hs'
      rw [ih l' a a s.next ht ht', ← hi, ← hi']

theorem dll_suffix {h : Heap} : ∀ (l1 : List (Nat × Int)) (q : Nat) (p : Option Nat) (a : Nat)
    (i : Int) (l2 : List (Nat × Int)),
    dll h q p (l1 ++ (a, i) :: l2) = true →
      ∃ s, h a = some (Obj.stream s) ∧ s.stream_id = i ∧ dll h a s.next l2 = true := by
  intro l1
  induction l1 with
  | nil =>
    intro q p a i l2 hd
    obtain ⟨_, s, hs, hi, _, ht⟩ := (dll_cons_iff h q p a i l2).1 hd
    exact ⟨s, hs, hi, ht⟩
  | cons r l1 ih =>
    obtain ⟨b, j⟩ := r
    intro q p a i l2 hd
    obtain ⟨_, s, _, _, _, ht⟩ := (dll_cons_iff h q p b j (l1 ++ (a, i) :: l2)).1 hd
    exact ih b s.next a i l2 ht

theorem dll_nodup {h : Heap} : ∀ (l : List (Nat × Int)) (q : Nat) (p : Option Nat),
    dll h q p l = true → (l.map Prod.fst).Nodup := by
  intro l
  induction l with
  | nil => intro q p _; simp
  | cons r l ih =>
    obtain ⟨a, i⟩ := r
    intro q p hd
    obtain ⟨_, s, hs, _, _, ht⟩ := (dll_cons_iff h q p a i l).1 hd
    rw [List.map_cons, List.nodup_cons]
    refine ⟨?_, ih a s.next ht⟩
    intro hm
    obtain ⟨r, hr, hra⟩ := List.mem_map.1 hm
    obtain ⟨l3, l4, hl⟩ := List.append_of_mem hr
    obtain ⟨b, k⟩ := r
    simp only at hra
    subst hra
    rw [hl] at ht
    obtain ⟨s', hs', _, ht'⟩ := dll_suffix l3 b s.next b k l4 ht
    rw [hs] at hs'
    cases hs'
    have hlen := congrArg List.length (dll_unique _ _ _ _ _ ht ht')
    simp at hlen
    omega

theorem valid_iff (h : Heap) (c s : Nat) (l : List (Nat × Int)) :
    valid h c s l = true ↔
      ∃ cn e, h c = some (Obj.conn cn) ∧ cn.session = some s ∧ h s = some (Obj.session e) ∧
        dll h c cn.head.next l = true := by
  unfold valid
  cases hc : h c with
  | none => simp
  | some o =>
    cases o with
    | stream x => simp
    | session x => simp
    | conn cn =>
      cases hs : h s with
      | none => simp
      | some o' =>
        cases o' with
        | stream x => simp
        | conn x => simp
        | session e => simp

theorem create_ok (st : State) (c a : Nat) (id : Int) (l : List (Nat × Int)) (cn : http2_conn)
    (hc : st.heap c = some (Obj.conn cn)) (hd : dll st.heap c cn.head.next l = true)
    (ha : st.heap a = none) :
    create_http2_stream_data st (some a) c id =
      Except.ok (some a, { st with heap := linked st.heap c a id cn }) := by
  have hca : c ≠ a := by
    intro e; rw [e, ha] at hc; cases hc
  have hac : a ≠ c := fun e => hca e.symm
  cases l with
  | nil =>
    have hn := (dll_nil_iff _ _ _).1 hd
    simp [create_http2_stream_data, set_stream_id, add_stream, set_next, set_prev, load_sd,
      store_sd, load_conn, linked, hc, hn, Function.update_apply, hca, hac]
    funext x
    simp only [Function.update_apply]
    split_ifs <;> simp_all
  | cons r l =>
    obtain ⟨n, j⟩ := r
    obtain ⟨hn, sn, hsn, _, _, _⟩ := (dll_cons_iff _ _ _ _ _ _).1 hd
    have hna : n ≠ a := by
      intro e; rw [e, ha] at hsn; cases hsn
    have hnc : n ≠ c := by
      intro e; rw [e, hc] at hsn; cases hsn
    simp [create_http2_stream_data, set_stream_id, add_stream, set_next, set_prev, load_sd,
      store_sd, load_conn, linked, hc, hn, hsn, Function.update_apply, hca, hac, hna, hnc]
    funext x
    simp only [Function.update_apply]
    split_ifs <;> simp_all

theorem dll_ne_of_not_stream {h : Heap} {l : List (Nat × Int)} {q : Nat} {p : Option Nat}
    (hd : dll h q p l = true) {x y : Nat} (hx : x ∈ l.map Prod.fst)
    (hy : ∀ s, h y ≠ some (Obj.stream s)) : x ≠ y := by
  intro e
  obtain ⟨s, hs⟩ := dll_live l q p hd x hx
  rw [e] at hs
  exact hy s hs

theorem linked_dll (h : Heap) (c a : Nat) (id : Int) (l : List (Nat × Int)) (cn : http2_conn)
    (hc : h c = some (Obj.conn cn)) (hd : dll h c cn.head.next l = true) (ha : h a = none) :
    dll (linked h c a id cn) c (some a) ((a, id) :: l) = true := by
  have hca : c ≠ a := by
    intro e; rw [e, ha] at hc; cases hc
  have hac : a ≠ c := fun e => hca e.symm
  rw [dll_cons_iff]
  cases l with
  | nil =>
    have hn := (dll_nil_iff _ _ _).1 hd
    refine ⟨rfl, { stream_id := id, next := cn.head.next, prev := some c }, ?_, rfl, rfl, ?_⟩
    · simp [linked, hn]
    · simp [hn, dll]
  | cons r l =>
    obtain ⟨n, j⟩ := r
    obtain ⟨hn, sn, hsn, hj, _, ht⟩ := (dll_cons_iff _ _ _ _ _ _).1 hd
    have hna : n ≠ a := by
      intro e; rw [e, ha] at hsn; cases hsn
    have hnc : n ≠ c := by
      intro e; rw [e, hc] at hsn; cases hsn
    refine ⟨rfl, { stream_id := id, next := cn.head.next, prev := some c }, ?_, rfl, rfl, ?_⟩
    · simp [linked, hn, hsn, Function.update_apply, hna, hna.symm]
    · simp only [hn]
      rw [dll_cons_iff]
      refine ⟨rfl, { sn with prev := some a }, ?_, hj, rfl, ?_⟩
      · simp [linked, hn, hsn]
      · have hnd := dll_nodup _ _ _ hd
        rw [List.map_cons, List.nodup_cons] at hnd
        rw [dll_congr l n sn.next _]
        · exact ht
        · intro x hx
          have hxn : x ≠ n := fun e => hnd.1 (e ▸ hx)
          have hxa : x ≠ a := dll_ne_of_not_stream ht hx (by simp [ha])
          have hxc : x ≠ c := dll_ne_of_not_stream ht hx (by simp [hc])
          simp [linked, hn, hsn, Function.update_apply, hxn, hxa, hxc]

theorem linked_other (h : Heap) (c a : Nat) (id : Int) (cn : http2_conn) (x : Nat) (hxa : x ≠ a) (hxc : x ≠ c)
    (hx : ∀ s, h x ≠ some (Obj.stream s)) : linked h c a id cn x = h x := by
  unfold linked
  cases hn : cn.head.next with
  | none => simp [Function.update_apply, hxa, hxc]
  | some n =>
    cases hsn : h n with
    | none => simp [hsn, Function.update_apply, hxa, hxc]
    | some o =>
      cases o with
      | conn y => simp [hsn, Function.update_apply, hxa, hxc]
      | session y => simp [hsn, Function.update_apply, hxa, hxc]
      | stream sn =>
        have hxn : x ≠ n := by
          intro e; rw [e] at hx; exact hx sn hsn
        simp [hsn, Function.update_apply, hxa, hxc, hxn]

theorem linked_conn (h : Heap) (c a : Nat) (id : Int) (cn : http2_conn)
    (hc : h c = some (Obj.conn cn)) (ha : h a = none) :
    linked h c a id cn c =
      some (Obj.conn { cn with head := { cn.head with next := some a } }) := by
  have hca : c ≠ a := by
    intro e; rw [e, ha] at hc; cases hc
  unfold linked
  cases hn : cn.head.next with
  | none => simp [Function.update_apply, hca]
  | some n =>
    cases hsn : h n with
    | none => simp [hsn, Function.update_apply, hca]
    | some o =>
      cases o with
      | conn y => simp [hsn, Function.update_apply, hca]
      | session y => simp [hsn, Function.update_apply, hca]
      | stream sn =>
        have hcn : c ≠ n := by
          intro e; rw [e, hsn] at hc; cases hc
        simp [hsn, Function.update_apply, hca, hcn]

theorem pred_mem : ∀ (l : List (Nat × Int)) (q : Nat), l ≠ [] → pred q l ∈ l.map Prod.fst := by
  intro l
  induction l with
  | nil => intro q hne; exact absurd rfl hne
  | cons r l ih =>
    obtain ⟨b, j⟩ := r
    intro q _
    cases l with
    | nil => simp [pred]
    | cons r' l' =>
      have := ih b (by simp)
      simp only [pred] at this ⊢
      exact List.mem_cons_of_mem _ this

theorem dll_mid {h : Heap} : ∀ (l1 : List (Nat × Int)) (q : Nat) (p : Option Nat) (a : Nat)
    (i : Int) (l2 : List (Nat × Int)),
    dll h q p (l1 ++ (a, i) :: l2) = true →
      ∃ s, h a = some (Obj.stream s) ∧ s.stream_id = i ∧ s.prev = some (pred q l1) ∧
        dll h a s.next l2 = true := by
  intro l1
  induction l1 with
  | nil =>
    intro q p a i l2 hd
    obtain ⟨_, s, hs, hi, hp, ht⟩ := (dll_cons_iff h q p a i l2).1 hd
    exact ⟨s, hs, hi, hp, ht⟩
  | cons r l1 ih =>
    obtain ⟨b, j⟩ := r
    intro q p a i l2 hd
    obtain ⟨_, s, _, _, _, ht⟩ := (dll_cons_iff h q p b j (l1 ++ (a, i) :: l2)).1 hd
    exact ih b s.next a i l2 ht

/-- Relinking of the part of the chain that follows the removed record. -/
theorem unlinked_tail (h : Heap) (a pv : Nat) (sa : http2_stream_data) (l2 : List (Nat × Int))
    (hd : dll h a sa.next l2 = true) (hpv : pv ∉ l2.map Prod.fst) (ha : a ∉ l2.map Prod.fst) :
    dll (unlinked h a sa pv) pv sa.next l2 = true := by
  cases l2 with
  | nil => simpa [dll] using hd
  | cons r l2 =>
    obtain ⟨n, k⟩ := r
    obtain ⟨hn, sn, hsn, hk, _, ht⟩ := (dll_cons_iff _ _ _ _ _ _).1 hd
    have hnd := dll_nodup _ _ _ hd
    rw [List.map_cons, List.nodup_cons] at hnd
    simp only [List.map_cons, List.mem_cons, not_or] at hpv ha
    rw [dll_cons_iff]
    refine ⟨hn, { sn with prev := some pv }, ?_, hk, rfl, ?_⟩
    · have hna : n ≠ a := fun e => ha.1 e.symm
      simp [unlinked, hna, hn, hsn, with_prev]
    · rw [dll_congr l2 n sn.next _]
      · exact ht
      · intro x hx
        have hxn : x ≠ n := fun e => hnd.1 (e ▸ hx)
        have hxa : x ≠ a := fun e => ha.2 (e ▸ hx)
        have hxp : x ≠ pv := fun e => hpv.2 (e ▸ hx)
        have hnx : ¬ n = x := fun e => hxn e.symm
        simp [unlinked, hxa, hn, hnx, hxp]

/-- Removal of a record that is not the first of the chain. -/
theorem unlinked_mid (h : Heap) (a : Nat) (i : Int) (sa : http2_stream_data)
    (l2 : List (Nat × Int)) (hsa : h a = some (Obj.stream sa)) :
    ∀ (l1 : List (Nat × Int)) (q : Nat) (p : Option Nat), l1 ≠ [] →
      dll h q p (l1 ++ (a, i) :: l2) = true →
        dll (unlinked h a sa (pred q l1)) q p (l1 ++ l2) = true := by
  intro l1
  induction l1 with
  | nil => intro q p hne; exact absurd rfl hne
  | cons r l1 ih =>
    obtain ⟨b, j⟩ := r
    intro q p _ hd
    have hnd := dll_nodup _ _ _ hd
    obtain ⟨hp, sb, hsb, hj, hq, ht⟩ := (dll_cons_iff _ _ _ _ _ _).1 hd
    rw [List.cons_append, List.map_cons, List.nodup_cons] at hnd
    obtain ⟨hbn, hnd'⟩ := hnd
    have hbn' : ∀ x ∈ (l1 ++ (a, i) :: l2).map Prod.fst, b ≠ x := fun x hx e => hbn (e ▸ hx)
    have hba : b ≠ a := hbn' a (by simp)
    obtain ⟨sa', hsa', _, _, hta⟩ := dll_mid l1 b sb.next a i l2 ht
    rw [hsa] at hsa'
    cases hsa'
    have hnb : sa.next ≠ some b := by
      intro e
      cases l2 with
      | nil => rw [(dll_nil_iff _ _ _).1 hta] at e; cases e
      | cons r2 l2 =>
        obtain ⟨n, k⟩ := r2
        obtain ⟨hn, _⟩ := (dll_cons_iff _ _ _ _ _ _).1 hta
        rw [hn] at e
        cases e
        exact hbn' b (by simp) rfl
    rw [List.cons_append, dll_cons_iff]
    cases l1 with
    | nil =>
      simp only [List.nil_append] at ht hnd' ⊢
      rw [List.map_cons, List.nodup_cons] at hnd'
      refine ⟨hp, { sb with next := sa.next }, ?_, hj, hq, ?_⟩
      · simp [unlinked, hba, hnb, pred, hsb, with_next]
      · simp only [pred]
        exact unlinked_tail h a b sa l2 hta (fun hm => hbn' b (by simp [hm]) rfl) hnd'.1
    | cons r1 l1 =>
      obtain ⟨b1, j1⟩ := r1
      have hpm := pred_mem ((b1, j1) :: l1) b (by simp)
      have hbp : b ≠ pred b ((b1, j1) :: l1) :=
        hbn' _ (by rw [List.map_append]; exact List.mem_append_left _ hpm)
      refine ⟨hp, sb, ?_, hj, hq, ?_⟩
      · show unlinked h a sa (pred b ((b1, j1) :: l1)) b = _
        simp [unlinked, hba, hnb, hbp, hsb]
      · exact ih b sb.next (by simp) ht

theorem set_next_eq {h : Heap} {p : Nat} (v : Option Nat)
    (hp : (∃ s, h p = some (Obj.stream s)) ∨ ∃ c, h p = some (Obj.conn c)) :
    set_next h p v = Except.ok (Function.update h p (with_next (h p) v)) := by
  rcases hp with ⟨s, hs⟩ | ⟨c, hc⟩
  · rw [set_next_stream v hs, hs]; rfl
  · rw [set_next_conn v hc, hc]; rfl

theorem remove_free_ok (st : State) (c a pv : Nat) (sa : http2_stream_data)
    (hsa : st.heap a = some (Obj.stream sa)) (hpv : sa.prev = some pv) (hpa : pv ≠ a)
    (hp : (∃ s, st.heap pv = some (Obj.stream s)) ∨ ∃ cn, st.heap pv = some (Obj.conn cn))
    (hn : ∀ n, sa.next = some n → n ≠ a ∧ n ≠ pv ∧ ∃ sn, st.heap n = some (Obj.stream sn)) :
    (remove_stream st.heap c a >>= fun h => delete_http2_stream_data { st with heap := h } a) =
      Except.ok { st with heap := unlinked st.heap a sa pv, trace := st.trace ++ [Event.free a] } := by
  have hap : a ≠ pv := fun e => hpa e.symm
  have h1a : Function.update st.heap pv (with_next (st.heap pv) sa.next) a = some (Obj.stream sa) := by
    simp [Function.update_apply, hap, hsa]
  unfold remove_stream
  rw [load_sd_stream hsa]
  simp only [ok_bind, hpv, deref, pure_eq_ok]
  rw [set_next_eq _ hp]
  simp only [ok_bind]
  rw [load_sd_stream h1a]
  simp only [ok_bind]
  cases hnx : sa.next with
  | none =>
    rw [hnx] at h1a
    simp only [pure_eq_ok, ok_bind, delete_http2_stream_data, free, h1a]
    congr 2
    funext x
    simp only [unlinked, Function.update_apply, hnx]
    split_ifs <;> simp_all
  | some n =>
    obtain ⟨hna, hnp, sn, hsn⟩ := hn n hnx
    have h1n : Function.update st.heap pv (with_next (st.heap pv) (some n)) n
        = some (Obj.stream sn) := by
      simp [Function.update_apply, hnp, hsn]
    simp only [hnx] at h1a
    simp only [set_prev_stream _ h1n, ok_bind, delete_http2_stream_data, free,
      Function.update_apply, hna.symm, if_false, h1a, hap, pure_eq_ok, hsa]
    congr 2
    funext x
    simp only [unlinked, Function.update_apply, hnx, hpv]
    by_cases hxa : x = a
    · simp [hxa]
    · by_cases hxn : x = n
      · subst hxn
        simp [hxa, hsn, with_prev]
      · have : ¬ n = x := fun e => hxn e.symm
        simp only [hxa, hxn, this, if_false, Option.some.injEq]
        split_ifs with hxp
        · rw [hxp]
        · rfl

theorem nodup_mid_facts {α : Type} (l1 : List α) (a : α) (l2 : List α)
    (h : (l1 ++ a :: l2).Nodup) : a ∉ l1 ∧ a ∉ l2 ∧ ∀ x ∈ l1, x ∉ l2 := by
  rw [List.nodup_append] at h
  obtain ⟨_, h2, h3⟩ := h
  rw [List.nodup_cons] at h2
  exact ⟨fun hm => h3 hm (List.mem_cons_self _ _), h2.1,
    fun x hx hx2 => h3 hx (List.mem_cons_of_mem _ hx2)⟩

/-- Closing the stream whose record sits at `a`, anywhere in a well-formed registry:
the record is unlinked and released, all other records stay, in order. -/
theorem close_core (st : State) (c s a : Nat) (i : Int) (l1 l2 : List (Nat × Int))
    (hv : valid st.heap c s (l1 ++ (a, i) :: l2) = true) :
    ∃ h, (remove_stream st.heap c a >>= fun h => delete_http2_stream_data { st with heap := h } a)
        = Except.ok { st with heap := h, trace := st.trace ++ [Event.free a] } ∧
      valid h c s (l1 ++ l2) = true ∧ h a = none ∧ h s = st.heap s := by
  obtain ⟨cn, e, hc, hses, hs, hd⟩ := (valid_iff _ _ _ _).1 hv
  obtain ⟨sa, hsa, _, hprev, hta⟩ := dll_mid l1 c cn.head.next a i l2 hd
  have hnd := dll_nodup _ _ _ hd
  rw [List.map_append, List.map_cons] at hnd
  obtain ⟨ha1, ha2, h12⟩ := nodup_mid_facts _ _ _ hnd
  have hlive := dll_live _ _ _ hd
  have hcs : ∀ x ∈ (l1 ++ (a, i) :: l2).map Prod.fst, x ≠ c := fun x hx =>
    dll_ne_of_not_stream hd hx (by simp [hc])
  have hss : ∀ x ∈ (l1 ++ (a, i) :: l2).map Prod.fst, x ≠ s := fun x hx =>
    dll_ne_of_not_stream hd hx (by simp [hs])
  have hac : a ≠ c := hcs a (by simp)
  have has : a ≠ s := hss a (by simp)
  -- the predecessor
  have hpv : pred c l1 = c ∧ l1 = [] ∨ pred c l1 ∈ l1.map Prod.fst ∧ l1 ≠ [] := by
    cases l1 with
    | nil => exact Or.inl ⟨rfl, rfl⟩
    | cons r l1 => exact Or.inr ⟨pred_mem _ c (by simp), by simp⟩
  have hpa : pred c l1 ≠ a := by
    rcases hpv with ⟨h1, _⟩ | ⟨h1, _⟩
    · rw [h1]; exact fun e => hac e.symm
    · exact fun e => ha1 (e ▸ h1)
  have hps : pred c l1 ≠ s := by
    rcases hpv with ⟨h1, _⟩ | ⟨h1, _⟩
    · rw [h1]; intro e; rw [e, hs] at hc; cases hc
    · exact hss _ (by simp [h1])
  have hp : (∃ x, st.heap (pred c l1) = some (Obj.stream x)) ∨
      ∃ x, st.heap (pred c l1) = some (Obj.conn x) := by
    rcases hpv with ⟨h1, _⟩ | ⟨h1, _⟩
    · rw [h1]; exact Or.inr ⟨cn, hc⟩
    · exact Or.inl (hlive _ (by simp [h1]))
  have hn : ∀ n, sa.next = some n →
      n ∈ l2.map Prod.fst := by
    intro n hnx
    cases l2 with
    | nil => rw [(dll_nil_iff _ _ _).1 hta] at hnx; cases hnx
    | cons r l2 =>
      obtain ⟨m, k⟩ := r
      obtain ⟨hm, _⟩ := (dll_cons_iff _ _ _ _ _ _).1 hta
      rw [hm] at hnx
      cases hnx
      simp
  have hn' : ∀ n, sa.next = some n →
      n ≠ a ∧ n ≠ pred c l1 ∧ ∃ sn, st.heap n = some (Obj.stream sn) := by
    intro n hnx
    have hm := hn n hnx
    refine ⟨fun e => ha2 (e ▸ hm), ?_, hlive n (by simp [hm])⟩
    rcases hpv with ⟨h1, _⟩ | ⟨h1, _⟩
    · rw [h1]; exact hcs n (by simp [hm])
    · exact fun e => h12 _ h1 (e ▸ hm)
  refine ⟨unlinked st.heap a sa (pred c l1), remove_free_ok st c a _ sa hsa hprev hpa hp hn', ?_,
    by simp [unlinked], ?_⟩
  · rw [valid_iff]
    have hnc : sa.next ≠ some c := fun e => hcs c (by simp [hn c e]) rfl
    have hns : sa.next ≠ some s := fun e => hss s (by simp [hn s e]) rfl
    have hs' : unlinked st.heap a sa (pred c l1) s = some (Obj.session e) := by
      simp [unlinked, has.symm, hns, hps.symm, hs]
    rcases hpv with ⟨h1, h2⟩ | ⟨h1, h2⟩
    · subst h2
      refine ⟨{ cn with head := { cn.head with next := sa.next } }, e, ?_, hses, hs', ?_⟩
      · simp [unlinked, hac.symm, hnc, pred, hc, with_next]
      · simpa [pred] using unlinked_tail st.heap a c sa l2 hta
          (fun hm => hcs c (by simp [hm]) rfl) ha2
    · refine ⟨cn, e, ?_, hses, hs', unlinked_mid st.heap a i sa l2 hsa l1 c _ h2 hd⟩
      have hcp : c ≠ pred c l1 := fun e => hcs _ (by simp [h1]) e.symm
      simp [unlinked, hac.symm, hnc, hcp, hc]
  · have hns : sa.next ≠ some s := fun e => hss s (by simp [hn s e]) rfl
    simp [unlinked, has.symm, hns, hps.symm]

theorem delete_streams_ok : ∀ (l : List (Nat × Int)) (st : State) (q : Nat) (p : Option Nat)
    (fuel : Nat), dll st.heap q p l = true → l.length < fuel →
      delete_streams fuel st p = Except.ok { st with
        heap := fun x => if x ∈ l.map Prod.fst then none else st.heap x,
        trace := st.trace ++ l.map (fun r => Event.free r.1) } := by
  intro l
  induction l with
  | nil =>
    intro st q p fuel hd hf
    have hp := (dll_nil_iff _ _ _).1 hd
    subst hp
    cases fuel with
    | zero => simp at hf
    | succ f => simp [delete_streams]
  | cons r l ih =>
    obtain ⟨a, i⟩ := r
    intro st q p fuel hd hf
    obtain ⟨hp, sa, hsa, _, _, ht⟩ := (dll_cons_iff _ _ _ _ _ _).1 hd
    subst hp
    have hnd := dll_nodup _ _ _ hd
    rw [List.map_cons, List.nodup_cons] at hnd
    cases fuel with
    | zero => simp at hf
    | succ f =>
      have ht' : dll (Function.update st.heap a none) a sa.next l = true := by
        rw [dll_congr l a sa.next _]
        · exact ht
        · intro x hx
          have : x ≠ a := fun e => hnd.1 (e ▸ hx)
          simp [Function.update_apply, this]
      have := ih ⟨st.connection, Function.update st.heap a none, st.pool,
        st.trace ++ [Event.free a]⟩ a sa.next f ht' (by simpa using hf)
      simp only [delete_streams, load_sd_stream hsa, ok_bind, delete_http2_stream_data, free, hsa,
        pure_eq_ok, this]
      congr 2
      · funext x
        simp only [List.map_cons, List.mem_cons, Function.update_apply]
        by_cases hxa : x = a
        · simp only [hxa, true_or, if_true, ite_self]
        · simp only [hxa, false_or, if_false]
      · simp

theorem delete_ok (st : State) (c s : Nat) (l : List (Nat × Int)) (fuel : Nat)
    (hh2 : st.connection.h2 = some c) (hv : valid st.heap c s l = true)
    (hfuel : l.length < fuel) :
    http2_session_delete fuel st = Except.ok { st with
      heap := released st.heap c s l,
      trace := st.trace ++ Event.nghttp2_session_del s ::
        (l.map (fun r => Event.free r.1) ++ [Event.free c]) } := by
  obtain ⟨cn, e, hc, hses, hs, hd⟩ := (valid_iff _ _ _ _).1 hv
  have hcs : c ≠ s := by
    intro e'; rw [e', hs] at hc; cases hc
  have hxs : ∀ x ∈ l.map Prod.fst, x ≠ s := fun x hx =>
    dll_ne_of_not_stream hd hx (by simp [hs])
  have hxc : ∀ x ∈ l.map Prod.fst, x ≠ c := fun x hx =>
    dll_ne_of_not_stream hd hx (by simp [hc])
  have hc1 : Function.update st.heap s none c = some (Obj.conn cn) := by
    simp [Function.update_apply, hcs, hc]
  have hd1 : dll (Function.update st.heap s none) c cn.head.next l = true := by
    rw [dll_congr l c cn.head.next _]
    · exact hd
    · intro x hx
      simp [Function.update_apply, hxs x hx]
  have hloop := delete_streams_ok l ⟨st.connection, Function.update st.heap s none, st.pool,
    st.trace ++ [Event.nghttp2_session_del s]⟩ c cn.head.next fuel hd1 hfuel
  have hcl : c ∉ l.map Prod.fst := fun hm => hxc c hm rfl
  simp only [http2_session_delete, hh2, deref, pure_eq_ok, ok_bind, load_conn, hc, hses,
    nghttp2_session_del, hs, hc1, hloop, free, hcl, if_false]
  congr 2
  · funext x
    simp only [released, Function.update_apply]
    by_cases h1 : x = c
    · simp only [h1, true_or, if_true]
    · by_cases h2 : x = s
      · simp only [h1, h2, true_or, or_true, false_or, if_true, if_false, ite_self]
      · simp only [h1, h2, false_or, if_false]
  · simp

theorem delete_released (st : State) (c : Nat) (fuel : Nat)
    (hh2 : st.connection.h2 = some c) (hc : st.heap c = none) :
    http2_session_delete fuel st = Except.error Fault.invalid_access := by
  simp [http2_session_delete, hh2, deref, load_conn, hc]

/-! ## Stream registry and frame event handlers -/

theorem filter_snd_ne (l1 l2 : List (Nat × Int)) (a : Nat) (id : Int)
    (hnd : ((l1 ++ (a, id) :: l2).map Prod.snd).Nodup) :
    (l1 ++ (a, id) :: l2).filter (fun r => decide (r.2 ≠ id)) = l1 ++ l2 := by
  rw [List.map_append, List.map_cons] at hnd
  obtain ⟨h1, h2, _⟩ := nodup_mid_facts _ _ _ hnd
  have f1 : l1.filter (fun r => decide (r.2 ≠ id)) = l1 := by
    rw [List.filter_eq_self]
    intro r hr
    have : r.2 ≠ id := fun e => h1 (List.mem_map.2 ⟨r, hr, e⟩)
    simpa using this
  have f2 : l2.filter (fun r => decide (r.2 ≠ id)) = l2 := by
    rw [List.filter_eq_self]
    intro r hr
    have : r.2 ≠ id := fun e => h2 (List.mem_map.2 ⟨r, hr, e⟩)
    simpa using this
  rw [List.filter_append, List.filter_cons, f1, f2]
  simp

theorem get_user_data_iff (h : Heap) (s : Nat) (id : Int) (v : Option Nat) :
    nghttp2_session_get_stream_user_data h s id = Except.ok v ↔
      ∃ e, h s = some (Obj.session e) ∧ e.stream_user_data id = v := by
  unfold nghttp2_session_get_stream_user_data load_session
  cases hs : h s with
  | none => simp
  | some o =>
    cases o with
    | conn x => simp
    | stream x => simp
    | session e => simp

theorem close_callback_ok (st : State) (c s a : Nat) (id i : Int) (err : Nat)
    (l1 l2 : List (Nat × Int)) (hv : valid st.heap c s (l1 ++ (a, i) :: l2) = true)
    (hget : nghttp2_session_get_stream_user_data st.heap s id = Except.ok (some a)) :
    ∃ st', on_stream_close_callback st s id err c = Except.ok (0, st') ∧
      valid st'.heap c s (l1 ++ l2) = true ∧ st'.heap a = none ∧ st'.heap s = st.heap s ∧
      st'.trace = st.trace ++ [Event.free a] ∧ st'.connection = st.connection := by
  obtain ⟨h, hrun, hval, ha, hs⟩ := close_core st c s a i l1 l2 hv
  refine ⟨{ st with heap := h, trace := st.trace ++ [Event.free a] }, ?_, hval, ha, hs, rfl, rfl⟩
  unfold on_stream_close_callback
  rw [hget]
  simp only [ok_bind]
  rw [← bind_assoc, hrun]
  rfl

theorem begin_headers_ok (K : Consts) (st : State) (c s b : Nat) (l : List (Nat × Int))
    (frame : nghttp2_frame) (hv : valid st.heap c s l = true) (hb : st.heap b = none)
    (hty : frame.type = K.NGHTTP2_HEADERS) (hcat : frame.headers_cat = K.NGHTTP2_HCAT_REQUEST) :
    ∃ st', on_begin_headers_callback K st (some b) s frame c = Except.ok (0, st') ∧
      valid st'.heap c s ((b, frame.stream_id) :: l) = true ∧
      nghttp2_session_get_stream_user_data st'.heap s frame.stream_id = Except.ok (some b) ∧
      st'.trace = st.trace ∧ st'.connection = st.connection := by
  obtain ⟨cn, e, hc, hses, hs, hd⟩ := (valid_iff _ _ _ _).1 hv
  have hsb : s ≠ b := by
    intro e'; rw [e', hb] at hs; cases hs
  have hsc : s ≠ c := by
    intro e'; rw [e', hc] at hs; cases hs
  have hls : linked st.heap c b frame.stream_id cn s = some (Obj.session e) := by
    rw [linked_other _ _ _ _ _ s hsb hsc (by simp [hs]), hs]
  have hdl := linked_dll st.heap c b frame.stream_id l cn hc hd hb
  have hlc := linked_conn st.heap c b frame.stream_id cn hc hb
  refine ⟨⟨st.connection, Function.update (linked st.heap c b frame.stream_id cn) s
    (some (Obj.session ⟨Function.update e.stream_user_data frame.stream_id (some b)⟩)),
    st.pool, st.trace⟩, ?_, ?_, ?_, rfl, rfl⟩
  · simp [on_begin_headers_callback, hty, hcat, create_ok st c b frame.stream_id l cn hc hd hb,
      nghttp2_session_set_stream_user_data, load_session, hls]
  · rw [valid_iff]
    refine ⟨{ cn with head := { cn.head with next := some b } },
      ⟨Function.update e.stream_user_data frame.stream_id (some b)⟩, ?_, hses, ?_, ?_⟩
    · simp only [Function.update_apply, hsc.symm, if_false]
      exact hlc
    · simp
    · simp only
      rw [dll_congr _ _ _ _]
      · exact hdl
      · intro x hx
        have : x ≠ s := dll_ne_of_not_stream hdl hx (by simp [hls])
        simp [Function.update_apply, this]
  · rw [get_user_data_iff]
    exact ⟨⟨Function.update e.stream_user_data frame.stream_id (some b)⟩, by simp, by simp⟩

/-- C1: for every well-formed registry, (a) if its stream ids are pairwise distinct and the
engine holds the record of a stream id, `on_stream_close_callback` for that id returns 0,
releases that record, and leaves exactly the other records, in their order, none of them
carrying the id; (b) whatever the registry holds (it may be empty), a headers-begun event for
a request on a fresh id followed by the stream-closed event of that id restores the registry,
which has no record for the id. -/
theorem stream_close_removes_record (K : Consts) (st : State) (c s : Nat) (err : Nat)
    (l : List (Nat × Int))
    (hv : valid st.heap c s l = true) :
    (∀ (a : Nat) (id : Int),
      (l.map Prod.snd).Nodup → (a, id) ∈ l →
      nghttp2_session_get_stream_user_data st.heap s id = Except.ok (some a) →
      ∃ st', on_stream_close_callback st s id err c = Except.ok (0, st') ∧
        valid st'.heap c s (l.filter (fun r => decide (r.2 ≠ id))) = true ∧
        id ∉ (l.filter (fun r => decide (r.2 ≠ id))).map Prod.snd ∧
        (∀ r ∈ l, r.2 ≠ id → r ∈ l.filter (fun r => decide (r.2 ≠ id))) ∧
        st'.heap a = none ∧ st'.trace = st.trace ++ [Event.free a]) ∧
    (∀ (frame : nghttp2_frame) (b : Nat),
      frame.type = K.NGHTTP2_HEADERS → frame.headers_cat = K.NGHTTP2_HCAT_REQUEST →
      frame.stream_id ∉ l.map Prod.snd → st.heap b = none →
      ∃ st1 st2, on_begin_headers_callback K st (some b) s frame c = Except.ok (0, st1) ∧
        valid st1.heap c s ((b, frame.stream_id) :: l) = true ∧
        on_stream_close_callback st1 s frame.stream_id err c = Except.ok (0, st2) ∧
        valid st2.heap c s l = true ∧ frame.stream_id ∉ l.map Prod.snd ∧
        st2.heap b = none ∧ st2.trace = st.trace ++ [Event.free b]) := by
  constructor
  · intro a id hdist hmem hget
    obtain ⟨l1, l2, hl⟩ := List.append_of_mem hmem
    subst hl
    obtain ⟨st', hrun, hval, ha, _, htr, _⟩ := close_callback_ok st c s a id id err l1 l2 hv hget
    have hf := filter_snd_ne l1 l2 a id hdist
    refine ⟨st', hrun, ?_, ?_, ?_, ha, htr⟩
    · rw [hf]; exact hval
    · intro hm
      obtain ⟨r, hr, hrid⟩ := List.mem_map.1 hm
      have := (List.mem_filter.1 hr).2
      simp at this
      exact this hrid
    · intro r hr hne
      exact List.mem_filter.2 ⟨hr, by simpa using hne⟩
  · intro frame b hty hcat hfresh hb
    obtain ⟨st1, hrun1, hval1, hget1, htr1, _⟩ :=
      begin_headers_ok K st c s b l frame hv hb hty hcat
    obtain ⟨st2, hrun2, hval2, hb2, _, htr2, _⟩ :=
      close_callback_ok st1 c s b frame.stream_id frame.stream_id err [] l hval1 hget1
    exact ⟨st1, st2, hrun1, hval1, hrun2, hval2, hfresh, hb2, by rw [htr2, htr1]⟩

theorem stream_close_removes_record_witness :
    (valid (ex_state 0).heap 1 2 [(11, 3), (10, 1)] = true ∧
      ∃ st', on_stream_close_callback (ex_state 0) 2 1 0 1 = Except.ok (0, st') ∧
        valid st'.heap 1 2 [(11, 3)] = true ∧
        (1 : Int) ∉ [((11 : Nat), (3 : Int))].map Prod.snd ∧
        (∀ r ∈ [((11 : Nat), (3 : Int)), (10, 1)], r.2 ≠ 1 → r ∈ [((11 : Nat), (3 : Int))]) ∧
        st'.heap 10 = none ∧ st'.trace = (ex_state 0).trace ++ [Event.free 10]) ∧
    (valid ex_fresh_state.heap 1 2 [] = true ∧
      ∃ st1 st2, on_begin_headers_callback std_consts ex_fresh_state (some 10) 2 (ex_request 1) 1
          = Except.ok (0, st1) ∧
        valid st1.heap 1 2 ((10, (ex_request 1).stream_id) :: []) = true ∧
        on_stream_close_callback st1 2 (ex_request 1).stream_id 0 1 = Except.ok (0, st2) ∧
        valid st2.heap 1 2 [] = true ∧
        (ex_request 1).stream_id ∉ ([] : List (Nat × Int)).map Prod.snd ∧
        st2.heap 10 = none ∧ st2.trace = ex_fresh_state.trace ++ [Event.free 10]) :=
  ⟨⟨by decide,
      (stream_close_removes_record std_consts (ex_state 0) 1 2 0 [(11, 3), (10, 1)]
        (by decide)).1 10 1 (by decide) (by decide) rfl⟩,
    ⟨by decide,
      (stream_close_removes_record std_consts ex_fresh_state 1 2 0 [] (by decide)).2
        (ex_request 1) 10 (by decide) (by decide) (by decide) rfl⟩⟩

theorem begin_headers_no_memory (K : Consts) (st : State) (c s : Nat) (l : List (Nat × Int))
    (frame : nghttp2_frame) (hv : valid st.heap c s l = true)
    (hty : frame.type = K.NGHTTP2_HEADERS) (hcat : frame.headers_cat = K.NGHTTP2_HCAT_REQUEST) :
    ∃ st', on_begin_headers_callback K st none s frame c = Except.ok (0, st') ∧
      valid st'.heap c s l = true := by
  obtain ⟨cn, e, hc, hses, hs, hd⟩ := (valid_iff _ _ _ _).1 hv
  have hcs : c ≠ s := by
    intro e'; rw [e', hs] at hc; cases hc
  refine ⟨⟨st.connection, Function.update st.heap s
    (some (Obj.session ⟨Function.update e.stream_user_data frame.stream_id none⟩)),
    st.pool, st.trace⟩, ?_, ?_⟩
  · simp [on_begin_headers_callback, hty, hcat, create_http2_stream_data,
      nghttp2_session_set_stream_user_data, load_session, hs]
  · rw [valid_iff]
    refine ⟨cn, ⟨Function.update e.stream_user_data frame.stream_id none⟩, ?_, hses, ?_, ?_⟩
    · simp [Function.update_apply, hcs, hc]
    · simp
    · simp only
      rw [dll_congr _ _ _ _]
      · exact hd
      · intro x hx
        have : x ≠ s := dll_ne_of_not_stream hd hx (by simp [hs])
        simp [Function.update_apply, this]

/-- C2 (as amended): `on_begin_headers_callback` has no duplicate check. For every well-formed
registry and every request-initiating HEADERS frame, whether or not the stream id already has a
record, it returns 0; when the allocation succeeds it puts a new record for the frame's stream
id at the head of the registry, keeps every existing record and associates the new record with
the id; when the allocation fails it inserts nothing. The stream ids of the registry therefore
stay pairwise distinct exactly when the id had no record before. -/
theorem begin_headers_inserts_unchecked (K : Consts) (st : State) (c s b : Nat)
    (l : List (Nat × Int)) (frame : nghttp2_frame)
    (hv : valid st.heap c s l = true) (hb : st.heap b = none)
    (hty : frame.type = K.NGHTTP2_HEADERS)
    (hcat : frame.headers_cat = K.NGHTTP2_HCAT_REQUEST) :
    (∃ st', on_begin_headers_callback K st (some b) s frame c = Except.ok (0, st') ∧
      valid st'.heap c s ((b, frame.stream_id) :: l) = true ∧
      nghttp2_session_get_stream_user_data st'.heap s frame.stream_id = Except.ok (some b) ∧
      st'.trace = st.trace) ∧
    (∃ st', on_begin_headers_callback K st none s frame c = Except.ok (0, st') ∧
      valid st'.heap c s l = true) ∧
    ((l.map Prod.snd).Nodup →
      ((((b, frame.stream_id) :: l).map Prod.snd).Nodup ↔ frame.stream_id ∉ l.map Prod.snd)) := by
  refine ⟨?_, begin_headers_no_memory K st c s l frame hv hty hcat, ?_⟩
  · obtain ⟨st', h1, h2, h3, h4, _⟩ := begin_headers_ok K st c s b l frame hv hb hty hcat
    exact ⟨st', h1, h2, h3, h4⟩
  · intro hnd
    rw [List.map_cons, List.nodup_cons]
    exact ⟨fun h => h.1, fun h => ⟨h, hnd⟩⟩

theorem begin_headers_inserts_unchecked_witness :
    (valid (ex_state 0).heap 1 2 [(11, 3), (10, 1)] = true ∧ (ex_state 0).heap 12 = none ∧
      (ex_request 1).type = std_consts.NGHTTP2_HEADERS ∧
      (ex_request 1).headers_cat = std_consts.NGHTTP2_HCAT_REQUEST) ∧
    ∃ st', on_begin_headers_callback std_consts (ex_state 0) (some 12) 2 (ex_request 1) 1
        = Except.ok (0, st') ∧
      valid st'.heap 1 2 ((12, (ex_request 1).stream_id) :: [(11, 3), (10, 1)]) = true ∧
      nghttp2_session_get_stream_user_data st'.heap 2 (ex_request 1).stream_id
        = Except.ok (some 12) ∧
      st'.trace = (ex_state 0).trace :=
  ⟨⟨by decide, rfl, by decide, by decide⟩,
    (begin_headers_inserts_unchecked std_consts (ex_state 0) 1 2 12 [(11, 3), (10, 1)]
      (ex_request 1) (by decide) rfl (by decide) (by decide)).1⟩

/-- C2 (counterexample): stream 1 already has the record at 10; a second request HEADERS frame
on stream 1 makes `on_begin_headers_callback` return 0 and the registry then holds two records
with stream id 1. -/
theorem begin_headers_duplicate_accepted :
    valid (ex_state 0).heap 1 2 [(11, 3), (10, 1)] = true ∧
    (on_begin_headers_callback std_consts (ex_state 0) (some 12) 2 (ex_request 1) 1).map
        (fun r => (r.1, registry r.2.heap 8 1, valid r.2.heap 1 2 [(12, 1), (11, 3), (10, 1)]))
      = Except.ok (0, [(12, 1), (11, 3), (10, 1)], true) :=
  ⟨by decide, rfl⟩

theorem store_sd_other {h h' : Heap} {p : Nat} {v : http2_stream_data}
    (hst : store_sd h p v = Except.ok h') (x : Nat) (e : nghttp2_session)
    (hx : h x = some (Obj.session e)) : h' x = some (Obj.session e) := by
  unfold store_sd at hst
  have hxp : x ≠ p := by
    intro ex
    rw [ex] at hx
    rw [hx] at hst
    cases hst
  cases hp : h p with
  | none => rw [hp] at hst; cases hst
  | some o =>
    rw [hp] at hst
    cases o with
    | session y => cases hst
    | stream y =>
      simp only [pure_eq_ok, Except.ok.injEq] at hst
      rw [← hst]; simp [Function.update_apply, hxp, hx]
    | conn y =>
      simp only [pure_eq_ok, Except.ok.injEq] at hst
      rw [← hst]; simp [Function.update_apply, hxp, hx]

theorem bind_eq_ok {α β : Type} {m : Except Fault α} {f : α → Except Fault β} {b : β}
    (h : (m >>= f) = Except.ok b) : ∃ a, m = Except.ok a ∧ f a = Except.ok b := by
  cases m with
  | error e => cases h
  | ok a => exact ⟨a, rfl, h⟩

theorem set_next_other {h h' : Heap} {p : Nat} {v : Option Nat}
    (hst : set_next h p v = Except.ok h') (x : Nat) (e : nghttp2_session)
    (hx : h x = some (Obj.session e)) : h' x = some (Obj.session e) := by
  unfold set_next at hst
  obtain ⟨sd, _, h2⟩ := bind_eq_ok hst
  exact store_sd_other h2 x e hx

theorem set_prev_other {h h' : Heap} {p : Nat} {v : Option Nat}
    (hst : set_prev h p v = Except.ok h') (x : Nat) (e : nghttp2_session)
    (hx : h x = some (Obj.session e)) : h' x = some (Obj.session e) := by
  unfold set_prev at hst
  obtain ⟨sd, _, h2⟩ := bind_eq_ok hst
  exact store_sd_other h2 x e hx

theorem remove_stream_other {h h' : Heap} {c p : Nat}
    (hrm : remove_stream h c p = Except.ok h') (x : Nat) (e : nghttp2_session)
    (hx : h x = some (Obj.session e)) : h' x = some (Obj.session e) ∧ x ≠ p := by
  unfold remove_stream at hrm
  obtain ⟨sd, h1, hrm⟩ := bind_eq_ok hrm
  have hxp : x ≠ p := by
    intro ex
    rw [ex] at hx
    simp [load_sd, hx] at h1
  obtain ⟨pv, _, hrm⟩ := bind_eq_ok hrm
  obtain ⟨h1', h3, hrm⟩ := bind_eq_ok hrm
  have hx1 := set_next_other h3 x e hx
  obtain ⟨sd', _, hrm⟩ := bind_eq_ok hrm
  refine ⟨?_, hxp⟩
  cases hn : sd'.next with
  | none =>
    rw [hn] at hrm
    simp only [pure_eq_ok, Except.ok.injEq] at hrm
    rw [← hrm]; exact hx1
  | some n =>
    rw [hn] at hrm
    exact set_prev_other hrm x e hx1

theorem close_keeps_session {st st1 : State} {s c err : Nat} {id : Int} {r : Int}
    (hrun : on_stream_close_callback st s id err c = Except.ok (r, st1)) :
    ∃ e, st1.heap s = some (Obj.session e) := by
  unfold on_stream_close_callback at hrun
  obtain ⟨sd, hget, hrun⟩ := bind_eq_ok hrun
  obtain ⟨e, he, _⟩ := (get_user_data_iff _ _ _ _).1 hget
  cases sd with
  | none =>
    simp only [pure_eq_ok, Except.ok.injEq, Prod.mk.injEq] at hrun
    rw [← hrun.2]; exact ⟨e, he⟩
  | some p =>
    simp only at hrun
    obtain ⟨h', hrm, hrun⟩ := bind_eq_ok hrun
    obtain ⟨st2, hfree, hrun⟩ := bind_eq_ok hrun
    simp only [pure_eq_ok, Except.ok.injEq, Prod.mk.injEq] at hrun
    obtain ⟨he', hsp⟩ := remove_stream_other hrm s e he
    unfold delete_http2_stream_data free at hfree
    simp only at hfree
    cases hp : h' p with
    | none => rw [hp] at hfree; cases hfree
    | some o =>
      rw [hp] at hfree
      simp only [pure_eq_ok, Except.ok.injEq] at hfree
      rw [← hrun.2, ← hfree]
      exact ⟨e, by simp [Function.update_apply, hsp, he']⟩

theorem header_callback_ok (K : Consts) (st : State) (s : Nat) (frame : nghttp2_frame)
    (name value : List Nat) (flags ud : Nat) (hs : ∃ e, st.heap s = some (Obj.session e)) :
    on_header_callback K st s frame name value flags ud = Except.ok (0, st) := by
  obtain ⟨e, he⟩ := hs
  unfold on_header_callback
  split_ifs <;> simp [nghttp2_session_get_stream_user_data, load_session, he]

/-- C10: for a stream id that has no record in the registry, `on_stream_close_callback` and
`on_header_callback` (for any frame, one on that id included) return 0 and leave the whole
state, the registry included, as it was; and a header-emitted event that follows the
stream-closed event of its stream id returns 0 and changes nothing, so it neither re-creates
nor mutates a record. -/
theorem absent_stream_is_noop (K : Consts) (st : State) (c s : Nat) (id : Int) (err : Nat)
    (l : List (Nat × Int)) (frame : nghttp2_frame) (name value : List Nat) (flags ud : Nat)
    (hv : valid st.heap c s l = true)
    (hsound : ∀ p, nghttp2_session_get_stream_user_data st.heap s id = Except.ok (some p) →
      (p, id) ∈ l)
    (hid : id ∉ l.map Prod.snd) :
    on_stream_close_callback st s id err c = Except.ok (0, st) ∧
    on_header_callback K st s frame name value flags ud = Except.ok (0, st) ∧
    (∀ (st0 st1 : State) (r : Int),
      on_stream_close_callback st0 s frame.stream_id err c = Except.ok (r, st1) →
        on_header_callback K st1 s frame name value flags ud = Except.ok (0, st1)) := by
  obtain ⟨cn, e, hc, hses, hs, hd⟩ := (valid_iff _ _ _ _).1 hv
  have hnone : e.stream_user_data id = none := by
    cases hp : e.stream_user_data id with
    | none => rfl
    | some p =>
      exact absurd (List.mem_map.2 ⟨(p, id), hsound p ((get_user_data_iff _ _ _ _).2 ⟨e, hs, hp⟩),
        rfl⟩) hid
  refine ⟨?_, header_callback_ok K st s frame name value flags ud ⟨e, hs⟩, ?_⟩
  · simp [on_stream_close_callback, nghttp2_session_get_stream_user_data, load_session, hs, hnone]
  · intro st0 st1 r hrun
    exact header_callback_ok K st1 s frame name value flags ud (close_keeps_session hrun)

theorem absent_stream_is_noop_witness :
    (valid (ex_state 0).heap 1 2 [(11, 3), (10, 1)] = true ∧
      (∀ p, nghttp2_session_get_stream_user_data (ex_state 0).heap 2 5 = Except.ok (some p) →
        (p, (5 : Int)) ∈ [((11 : Nat), (3 : Int)), (10, 1)]) ∧
      (5 : Int) ∉ [((11 : Nat), (3 : Int)), (10, 1)].map Prod.snd) ∧
    on_stream_close_callback (ex_state 0) 2 5 0 1 = Except.ok (0, ex_state 0) ∧
    on_header_callback std_consts (ex_state 0) 2 (ex_request 5) [58, 112] [47] 0 1
      = Except.ok (0, ex_state 0) :=
  have hs : ∀ p, nghttp2_session_get_stream_user_data (ex_state 0).heap 2 5
      = Except.ok (some p) → (p, (5 : Int)) ∈ [((11 : Nat), (3 : Int)), (10, 1)] :=
    fun p hp => by
      have h5 : nghttp2_session_get_stream_user_data (ex_state 0).heap 2 5 = Except.ok none := rfl
      rw [h5] at hp
      cases hp
  have hw := absent_stream_is_noop std_consts (ex_state 0) 1 2 5 0 [(11, 3), (10, 1)]
    (ex_request 5) [58, 112] [47] 0 1 (by decide) hs (by decide)
  ⟨⟨by decide, hs, by decide⟩, hw.1, hw.2.1⟩

theorem dll_mem {h : Heap} {l : List (Nat × Int)} {q : Nat} {p : Option Nat}
    (hd : dll h q p l = true) {a : Nat} {i : Int} (hm : (a, i) ∈ l) :
    ∃ sd, h a = some (Obj.stream sd) ∧ sd.stream_id = i := by
  obtain ⟨l1, l2, hl⟩ := List.append_of_mem hm
  subst hl
  obtain ⟨sd, hsd, hi, _, _⟩ := dll_mid l1 q p a i l2 hd
  exact ⟨sd, hsd, hi⟩

theorem request_recv_ok (K : Consts) (E : Engine) (st : State) (s c p : Nat)
    (sd : http2_stream_data) (e : nghttp2_session) (hs : st.heap s = some (Obj.session e))
    (hp : st.heap p = some (Obj.stream sd)) :
    on_request_recv K E st s c p =
      Except.ok
        (if E.nghttp2_submit_response st.heap s sd.stream_id ≠ 0
          then K.NGHTTP2_ERR_CALLBACK_FAILURE else 0,
        { st with trace := st.trace ++ Event.nghttp2_submit_response s sd.stream_id ::
            (if E.nghttp2_submit_response st.heap s sd.stream_id ≠ 0
              then [Event.close_indeterminate_fd] else []) }) := by
  unfold on_request_recv send_response
  simp only [load_sd_stream hp, ok_bind, load_session, hs, pure_eq_ok]
  by_cases hrv : E.nghttp2_submit_response st.heap s sd.stream_id = 0
  · simp [hrv]
  · simp [hrv]

/-- C3: `on_frame_recv_callback` runs the request dispatcher `on_request_recv`, which submits
exactly one response, on the frame's stream id, if and only if the frame is DATA or HEADERS,
carries END_STREAM, and the engine holds a stream record for the frame's stream id; in every
other case it submits nothing, returns 0 and leaves the state as it was. The heap, and with it
the stream registry, is the same after the call in all cases. -/
theorem frame_recv_dispatches_once (K : Consts) (E : Engine) (st : State) (c s : Nat)
    (l : List (Nat × Int)) (frame : nghttp2_frame)
    (hv : valid st.heap c s l = true)
    (hsound : ∀ p, nghttp2_session_get_stream_user_data st.heap s frame.stream_id
      = Except.ok (some p) → (p, frame.stream_id) ∈ l) :
    ((frame.type = K.NGHTTP2_DATA ∨ frame.type = K.NGHTTP2_HEADERS) ∧
        frame.flags &&& K.NGHTTP2_FLAG_END_STREAM ≠ 0 ∧
        (∃ p, nghttp2_session_get_stream_user_data st.heap s frame.stream_id
          = Except.ok (some p)) →
      ∃ p, nghttp2_session_get_stream_user_data st.heap s frame.stream_id = Except.ok (some p) ∧
        on_frame_recv_callback K E st s frame c = on_request_recv K E st s c p ∧
        on_frame_recv_callback K E st s frame c =
          Except.ok
            (if E.nghttp2_submit_response st.heap s frame.stream_id ≠ 0
              then K.NGHTTP2_ERR_CALLBACK_FAILURE else 0,
            { st with trace := st.trace ++
                Event.nghttp2_submit_response s frame.stream_id ::
                  (if E.nghttp2_submit_response st.heap s frame.stream_id ≠ 0
                    then [Event.close_indeterminate_fd] else []) })) ∧
    (¬ ((frame.type = K.NGHTTP2_DATA ∨ frame.type = K.NGHTTP2_HEADERS) ∧
        frame.flags &&& K.NGHTTP2_FLAG_END_STREAM ≠ 0 ∧
        (∃ p, nghttp2_session_get_stream_user_data st.heap s frame.stream_id
          = Except.ok (some p))) →
      on_frame_recv_callback K E st s frame c = Except.ok (0, st)) ∧
    (∃ r st', on_frame_recv_callback K E st s frame c = Except.ok (r, st') ∧
      st'.heap = st.heap ∧ valid st'.heap c s l = true) := by
  obtain ⟨cn, e, hc, hses, hs, hd⟩ := (valid_iff _ _ _ _).1 hv
  have hdisp : ∀ p, nghttp2_session_get_stream_user_data st.heap s frame.stream_id
      = Except.ok (some p) →
      (frame.type = K.NGHTTP2_DATA ∨ frame.type = K.NGHTTP2_HEADERS) →
      frame.flags &&& K.NGHTTP2_FLAG_END_STREAM ≠ 0 →
      on_frame_recv_callback K E st s frame c = on_request_recv K E st s c p ∧
        on_frame_recv_callback K E st s frame c =
          Except.ok
            (if E.nghttp2_submit_response st.heap s frame.stream_id ≠ 0
              then K.NGHTTP2_ERR_CALLBACK_FAILURE else 0,
            { st with trace := st.trace ++
                Event.nghttp2_submit_response s frame.stream_id ::
                  (if E.nghttp2_submit_response st.heap s frame.stream_id ≠ 0
                    then [Event.close_indeterminate_fd] else []) }) := by
    intro p hget hty hfl
    obtain ⟨sd, hsd, hid⟩ := dll_mem hd (hsound p hget)
    have hcall : on_frame_recv_callback K E st s frame c = on_request_recv K E st s c p := by
      unfold on_frame_recv_callback
      rw [if_pos hty, if_pos hfl, hget]
      rfl
    refine ⟨hcall, ?_⟩
    rw [hcall, request_recv_ok K E st s c p sd e hs hsd, hid]
  have hskip : ¬ ((frame.type = K.NGHTTP2_DATA ∨ frame.type = K.NGHTTP2_HEADERS) ∧
        frame.flags &&& K.NGHTTP2_FLAG_END_STREAM ≠ 0 ∧
        (∃ p, nghttp2_session_get_stream_user_data st.heap s frame.stream_id
          = Except.ok (some p))) →
      on_frame_recv_callback K E st s frame c = Except.ok (0, st) := by
    intro hno
    unfold on_frame_recv_callback
    by_cases hty : frame.type = K.NGHTTP2_DATA ∨ frame.type = K.NGHTTP2_HEADERS
    · rw [if_pos hty]
      by_cases hfl : frame.flags &&& K.NGHTTP2_FLAG_END_STREAM ≠ 0
      · rw [if_pos hfl]
        cases hu : e.stream_user_data frame.stream_id with
        | none =>
          rw [(get_user_data_iff _ _ _ _).2 ⟨e, hs, hu⟩]
          rfl
        | some p =>
          exact absurd ⟨hty, hfl, p, (get_user_data_iff _ _ _ _).2 ⟨e, hs, hu⟩⟩ hno
      · rw [if_neg hfl]; rfl
    · rw [if_neg hty]; rfl
  refine ⟨?_, hskip, ?_⟩
  · rintro ⟨hty, hfl, p, hget⟩
    exact ⟨p, hget, hdisp p hget hty hfl⟩
  · by_cases hcond : (frame.type = K.NGHTTP2_DATA ∨ frame.type = K.NGHTTP2_HEADERS) ∧
        frame.flags &&& K.NGHTTP2_FLAG_END_STREAM ≠ 0 ∧
        (∃ p, nghttp2_session_get_stream_user_data st.heap s frame.stream_id
          = Except.ok (some p))
    · obtain ⟨hty, hfl, p, hget⟩ := hcond
      exact ⟨_, _, (hdisp p hget hty hfl).2, rfl, hv⟩
    · exact ⟨0, st, hskip hcond, rfl, hv⟩

theorem frame_recv_dispatches_once_witness :
    (valid (ex_state 0).heap 1 2 [(11, 3), (10, 1)] = true ∧
      (∀ p, nghttp2_session_get_stream_user_data (ex_state 0).heap 2 (ex_last_frame 1).stream_id
        = Except.ok (some p) →
        (p, (ex_last_frame 1).stream_id) ∈ [((11 : Nat), (3 : Int)), (10, 1)])) ∧
    ∃ p, nghttp2_session_get_stream_user_data (ex_state 0).heap 2 (ex_last_frame 1).stream_id
        = Except.ok (some p) ∧
      on_frame_recv_callback std_consts (ex_engine 0 0) (ex_state 0) 2 (ex_last_frame 1) 1
        = on_request_recv std_consts (ex_engine 0 0) (ex_state 0) 2 1 p ∧
      on_frame_recv_callback std_consts (ex_engine 0 0) (ex_state 0) 2 (ex_last_frame 1) 1 =
        Except.ok
          (if (ex_engine 0 0).nghttp2_submit_response (ex_state 0).heap 2
              (ex_last_frame 1).stream_id ≠ 0
            then std_consts.NGHTTP2_ERR_CALLBACK_FAILURE else 0,
          { ex_state 0 with trace := (ex_state 0).trace ++
              Event.nghttp2_submit_response 2 (ex_last_frame 1).stream_id ::
                (if (ex_engine 0 0).nghttp2_submit_response (ex_state 0).heap 2
                    (ex_last_frame 1).stream_id ≠ 0
                  then [Event.close_indeterminate_fd] else []) }) :=
  have hs : ∀ p, nghttp2_session_get_stream_user_data (ex_state 0).heap 2
      (ex_last_frame 1).stream_id = Except.ok (some p) →
      (p, (ex_last_frame 1).stream_id) ∈ [((11 : Nat), (3 : Int)), (10, 1)] :=
    fun p hp => by
      have h1 : nghttp2_session_get_stream_user_data (ex_state 0).heap 2
          (ex_last_frame 1).stream_id = Except.ok (some 10) := rfl
      rw [h1] at hp
      cases hp
      decide
  ⟨⟨by decide, hs⟩,
    (frame_recv_dispatches_once std_consts (ex_engine 0 0) (ex_state 0) 1 2 [(11, 3), (10, 1)]
      (ex_last_frame 1) (by decide) hs).1 ⟨Or.inr rfl, by decide, 10, rfl⟩⟩

/-! ## Session adapter and connection bridge -/

theorem session_of_ok {h : Heap} {c s : Nat} {l : List (Nat × Int)}
    (hv : valid h c s l = true) : session_of h c = Except.ok s := by
  obtain ⟨cn, e, hc, hses, hs, _⟩ := (valid_iff _ _ _ _).1 hv
  simp [session_of, load_conn, hc, hses, deref, load_session, hs]

theorem session_send_ok (E : Engine) (st : State) (c s : Nat) (l : List (Nat × Int))
    (hv : valid st.heap c s l = true) :
    http2_session_send E st c =
      Except.ok (if (E.nghttp2_session_send st.heap s).1 ≠ 0 then -1 else 0,
        { st with heap := (E.nghttp2_session_send st.heap s).2,
                  trace := st.trace ++ [Event.nghttp2_session_send s] }) := by
  unfold http2_session_send
  rw [session_of_ok hv]
  by_cases hr : (E.nghttp2_session_send st.heap s).1 = 0
  · simp [hr]
  · simp [hr]

theorem released_facts (h : Heap) (c s : Nat) (l : List (Nat × Int)) :
    released h c s l c = none ∧ released h c s l s = none ∧
      (∀ r ∈ l, released h c s l r.1 = none) ∧
      ∀ x, x ≠ c → x ≠ s → x ∉ l.map Prod.fst → released h c s l x = h x := by
  refine ⟨by simp [released], by simp [released], ?_, ?_⟩
  · intro r hr
    have : r.1 ∈ l.map Prod.fst := List.mem_map_of_mem Prod.fst hr
    simp only [released, this, or_true, if_true]
  · intro x h1 h2 h3
    simp only [released, h1, h2, h3, or_self, if_false]

theorem valid_released_addrs {h : Heap} {c s : Nat} {l : List (Nat × Int)}
    (hv : valid h c s l = true) : (l.map Prod.fst ++ [c]).Nodup ∧ s ∉ l.map Prod.fst ++ [c] := by
  obtain ⟨cn, e, hc, _, hs, hd⟩ := (valid_iff _ _ _ _).1 hv
  have hnd := dll_nodup _ _ _ hd
  have hcl : c ∉ l.map Prod.fst := fun hm => dll_ne_of_not_stream hd hm (by simp [hc]) rfl
  have hsl : s ∉ l.map Prod.fst := fun hm => dll_ne_of_not_stream hd hm (by simp [hs]) rfl
  have hsc : s ≠ c := by
    intro e'; rw [e', hc] at hs; cases hs
  refine ⟨?_, ?_⟩
  · rw [List.nodup_append]
    refine ⟨hnd, List.nodup_singleton c, ?_⟩
    intro x hx hx'
    rw [List.mem_singleton] at hx'
    exact hcl (hx' ▸ hx)
  · intro hm
    rcases List.mem_append.1 hm with h1 | h1
    · exact hsl h1
    · exact hsc (List.mem_singleton.1 h1)

theorem delete_spec (st : State) (c s : Nat) (l : List (Nat × Int))
    (fuel : Nat) (hh2 : st.connection.h2 = some c) (hv : valid st.heap c s l = true)
    (hfuel : l.length < fuel) :
    ∃ st', http2_session_delete fuel st = Except.ok st' ∧
      st'.trace = st.trace ++ Event.nghttp2_session_del s ::
        (l.map Prod.fst ++ [c]).map Event.free ∧
      (l.map Prod.fst ++ [c]).Nodup ∧ (l.map Prod.fst).length = l.length ∧
      (∀ r ∈ l, st'.heap r.1 = none) ∧ st'.heap s = none ∧ st'.heap c = none ∧
      (∀ x, x ≠ c → x ≠ s → x ∉ l.map Prod.fst → st'.heap x = st.heap x) := by
  obtain ⟨f1, f2, f3, f4⟩ := released_facts st.heap c s l
  refine ⟨_, delete_ok st c s l fuel hh2 hv hfuel, ?_, (valid_released_addrs hv).1, by simp,
    f3, f2, f1, f4⟩
  simp [List.map_append, List.map_map, Function.comp_def]

/-- C6: on a connection whose registry is a well-formed list of `n` records and with fuel for
`n + 1` loop tests, `http2_session_delete` returns; it releases the engine handle first, then
the records one by one in list order (the successor is read before the record is released),
then the connection object; the released addresses are pairwise distinct, so every record is
released exactly once, and afterwards no record, nor the session, nor the connection object
is live, while nothing else on the heap has changed. -/
theorem session_delete_releases_all (st : State) (c s : Nat) (l : List (Nat × Int))
    (fuel : Nat) (hh2 : st.connection.h2 = some c) (hv : valid st.heap c s l = true)
    (hfuel : l.length < fuel) :
    ∃ st', http2_session_delete fuel st = Except.ok st' ∧
      st'.trace = st.trace ++ Event.nghttp2_session_del s ::
        (l.map Prod.fst ++ [c]).map Event.free ∧
      (l.map Prod.fst ++ [c]).Nodup ∧ (l.map Prod.fst).length = l.length ∧
      (∀ r ∈ l, st'.heap r.1 = none) ∧ st'.heap s = none ∧ st'.heap c = none ∧
      (∀ x, x ≠ c → x ≠ s → x ∉ l.map Prod.fst → st'.heap x = st.heap x) := by
  obtain ⟨f1, f2, f3, f4⟩ := released_facts st.heap c s l
  have hrun := delete_ok st c s l fuel hh2 hv hfuel
  have hnd := (valid_released_addrs hv).1
  refine ⟨_, hrun, ?_, hnd, by simp, f3, f2, f1, f4⟩
  simp [List.map_append, List.map_map, Function.comp_def]

theorem session_delete_releases_all_witness :
    ((ex_state 0).connection.h2 = some 1 ∧ valid (ex_state 0).heap 1 2 [(11, 3), (10, 1)] = true ∧
      [((11 : Nat), (3 : Int)), (10, 1)].length < 3) ∧
    ∃ st', http2_session_delete 3 (ex_state 0) = Except.ok st' ∧
      st'.trace = (ex_state 0).trace ++ Event.nghttp2_session_del 2 ::
        ([((11 : Nat), (3 : Int)), (10, 1)].map Prod.fst ++ [1]).map Event.free ∧
      ([((11 : Nat), (3 : Int)), (10, 1)].map Prod.fst ++ [1]).Nodup ∧
      ([((11 : Nat), (3 : Int)), (10, 1)].map Prod.fst).length
        = [((11 : Nat), (3 : Int)), (10, 1)].length ∧
      (∀ r ∈ [((11 : Nat), (3 : Int)), (10, 1)], st'.heap r.1 = none) ∧
      st'.heap 2 = none ∧ st'.heap 1 = none ∧
      (∀ x, x ≠ 1 → x ≠ 2 → x ∉ [((11 : Nat), (3 : Int)), (10, 1)].map Prod.fst →
        st'.heap x = (ex_state 0).heap x) :=
  ⟨⟨rfl, by decide, by decide⟩,
    session_delete_releases_all (ex_state 0) 1 2 [(11, 3), (10, 1)] 3 rfl (by decide)
      (by decide)⟩

theorem handle_write_eq (E : Engine) (fuel : Nat) (st : State) (c s : Nat)
    (l : List (Nat × Int)) (hh2 : st.connection.h2 = some c) (hv : valid st.heap c s l = true) :
    http2_handle_write E fuel st =
      if E.nghttp2_session_want_read st.heap s = 0 ∧ E.nghttp2_session_want_write st.heap s = 0
      then http2_session_delete fuel st
      else if (E.nghttp2_session_send st.heap s).1 ≠ 0 then
        http2_session_delete fuel
          { st with heap := (E.nghttp2_session_send st.heap s).2,
                    trace := st.trace ++ [Event.nghttp2_session_send s] }
      else
        Except.ok
          { st with heap := (E.nghttp2_session_send st.heap s).2,
                    trace := st.trace ++ [Event.nghttp2_session_send s] } := by
  unfold http2_handle_write
  simp only [hh2, deref, pure_eq_ok, ok_bind, session_of_ok hv, session_send_ok E st c s l hv]
  split_ifs <;> simp_all

/-- C5: on an active session (well-formed before the call and after the engine's flush),
`http2_handle_write` returns. When the engine reports neither read nor write interest it tears
the session down without flushing; otherwise it calls `nghttp2_session_send` exactly once and
tears the session down exactly when that call reports a non-zero value. Hence the session is
live after the call if and only if (want_read or want_write is non-zero) and the flush
returned 0. -/
theorem handle_write_keeps_session_iff (E : Engine) (fuel : Nat) (st : State) (c s : Nat)
    (l lf : List (Nat × Int)) (hh2 : st.connection.h2 = some c)
    (hv : valid st.heap c s l = true)
    (hvf : valid (E.nghttp2_session_send st.heap s).2 c s lf = true)
    (hfuel : l.length < fuel) (hfuelf : lf.length < fuel) :
    ∃ st', http2_handle_write E fuel st = Except.ok st' ∧
      (E.nghttp2_session_want_read st.heap s = 0 ∧ E.nghttp2_session_want_write st.heap s = 0 →
        st'.trace = st.trace ++ Event.nghttp2_session_del s ::
          (l.map Prod.fst ++ [c]).map Event.free) ∧
      (¬ (E.nghttp2_session_want_read st.heap s = 0 ∧
            E.nghttp2_session_want_write st.heap s = 0) →
        ((E.nghttp2_session_send st.heap s).1 = 0 →
          st'.trace = st.trace ++ [Event.nghttp2_session_send s] ∧
          st'.heap = (E.nghttp2_session_send st.heap s).2) ∧
        ((E.nghttp2_session_send st.heap s).1 ≠ 0 →
          st'.trace = st.trace ++ Event.nghttp2_session_send s ::
            Event.nghttp2_session_del s :: (lf.map Prod.fst ++ [c]).map Event.free)) ∧
      ((∃ e, st'.heap s = some (Obj.session e)) ↔
        ((E.nghttp2_session_want_read st.heap s ≠ 0 ∨
            E.nghttp2_session_want_write st.heap s ≠ 0) ∧
          (E.nghttp2_session_send st.heap s).1 = 0)) := by
  rw [handle_write_eq E fuel st c s l hh2 hv]
  by_cases hw : E.nghttp2_session_want_read st.heap s = 0 ∧
      E.nghttp2_session_want_write st.heap s = 0
  · rw [if_pos hw]
    obtain ⟨st', hrun, htr, _, _, _, hs, _, _⟩ :=
      delete_spec st c s l fuel hh2 hv hfuel
    refine ⟨st', hrun, fun _ => htr, fun h => absurd hw h, ?_⟩
    constructor
    · rintro ⟨e, he⟩
      rw [hs] at he
      cases he
    · rintro ⟨h1, _⟩
      rcases h1 with h1 | h1
      · exact absurd hw.1 h1
      · exact absurd hw.2 h1
  · rw [if_neg hw]
    have hw' : E.nghttp2_session_want_read st.heap s ≠ 0 ∨
        E.nghttp2_session_want_write st.heap s ≠ 0 := by
      by_contra hcon
      push_neg at hcon
      exact hw hcon
    by_cases hr : (E.nghttp2_session_send st.heap s).1 = 0
    · rw [if_neg (not_not.2 hr)]
      obtain ⟨_, e, _, _, hs, _⟩ := (valid_iff _ _ _ _).1 hvf
      exact ⟨_, rfl, fun h => absurd h hw, fun _ => ⟨fun _ => ⟨rfl, rfl⟩, fun h => absurd hr h⟩,
        fun _ => ⟨hw', hr⟩, fun _ => ⟨e, hs⟩⟩
    · rw [if_pos hr]
      obtain ⟨st', hrun, htr, _, _, _, hs, _, _⟩ :=
        delete_spec ⟨st.connection, (E.nghttp2_session_send st.heap s).2,
          st.pool, st.trace ++ [Event.nghttp2_session_send s]⟩ c s lf fuel hh2 hvf hfuelf
      refine ⟨st', hrun, fun h => absurd h hw, fun _ => ⟨fun h => absurd h hr, fun _ => ?_⟩, ?_⟩
      · rw [htr]; simp
      · constructor
        · rintro ⟨e, he⟩
          rw [hs] at he
          cases he
        · rintro ⟨_, h2⟩
          exact absurd h2 hr

theorem handle_write_keeps_session_iff_witness :
    ((ex_state 0).connection.h2 = some 1 ∧
      valid (ex_state 0).heap 1 2 [(11, 3), (10, 1)] = true ∧
      valid ((ex_engine 0 0).nghttp2_session_send (ex_state 0).heap 2).2 1 2 [(11, 3), (10, 1)]
        = true ∧
      [((11 : Nat), (3 : Int)), (10, 1)].length < 3) ∧
    ∃ st', http2_handle_write (ex_engine 0 0) 3 (ex_state 0) = Except.ok st' ∧
      ((∃ e, st'.heap 2 = some (Obj.session e)) ↔
        (((ex_engine 0 0).nghttp2_session_want_read (ex_state 0).heap 2 ≠ 0 ∨
            (ex_engine 0 0).nghttp2_session_want_write (ex_state 0).heap 2 ≠ 0) ∧
          ((ex_engine 0 0).nghttp2_session_send (ex_state 0).heap 2).1 = 0)) :=
  ⟨⟨rfl, by decide, by decide, by decide⟩,
    (handle_write_keeps_session_iff (ex_engine 0 0) 3 (ex_state 0) 1 2 [(11, 3), (10, 1)]
      [(11, 3), (10, 1)] rfl (by decide) (by decide) (by decide) (by decide)).elim
      fun st' h => ⟨st', h.1, h.2.2.2⟩⟩

theorem send_preface_eq (K : Consts) (E : Engine) (fuel : Nat) (st : State) (c s : Nat)
    (l : List (Nat × Int)) (hh2 : st.connection.h2 = some c) (hv : valid st.heap c s l = true) :
    MHD_http2_send_preface K E fuel st =
      if E.nghttp2_submit_settings st.heap s ≠ 0 then
        (http2_session_delete fuel
          { st with trace := st.trace ++ [Event.nghttp2_submit_settings s] }).map
          (fun st' => (K.MHD_NO, st'))
      else if (E.nghttp2_session_send st.heap s).1 ≠ 0 then
        (http2_session_delete fuel
          { st with heap := (E.nghttp2_session_send st.heap s).2,
                    trace := st.trace ++ [Event.nghttp2_submit_settings s,
                      Event.nghttp2_session_send s] }).map
          (fun st' => (K.MHD_NO, st'))
      else
        Except.ok (K.MHD_YES,
          { st with heap := (E.nghttp2_session_send st.heap s).2,
                    trace := st.trace ++ [Event.nghttp2_submit_settings s,
                      Event.nghttp2_session_send s] }) := by
  have hv1 : valid (State.mk st.connection st.heap st.pool
      (st.trace ++ [Event.nghttp2_submit_settings s])).heap c s l = true := hv
  unfold MHD_http2_send_preface http2_send_server_connection_preface
  simp only [hh2, deref, pure_eq_ok, ok_bind, session_of_ok hv]
  by_cases h1 : E.nghttp2_submit_settings st.heap s = 0
  · simp only [h1, ne_eq, not_true_eq_false, if_false, ok_bind]
    rw [session_send_ok E _ c s l hv1]
    by_cases h2 : (E.nghttp2_session_send st.heap s).1 = 0
    · simp [h2]
    · simp only [h2, ne_eq, not_false_eq_true, if_true, ok_bind]
      simp [Except.map, bind, Except.bind]
  · simp only [h1, ne_eq, not_false_eq_true, if_true, ok_bind]
    simp [Except.map, bind, Except.bind]

theorem delete_then_fault (st : State) (c s : Nat) (l : List (Nat × Int)) (fuel fuel' : Nat)
    (hh2 : st.connection.h2 = some c) (hv : valid st.heap c s l = true)
    (hfuel : l.length < fuel) :
    ∃ st', http2_session_delete fuel st = Except.ok st' ∧ st'.connection.h2 = some c ∧
      st'.heap c = none ∧ st'.heap s = none ∧
      http2_session_delete fuel' st' = Except.error Fault.invalid_access := by
  obtain ⟨f1, f2, _, _⟩ := released_facts st.heap c s l
  exact ⟨_, delete_ok st c s l fuel hh2 hv hfuel, hh2, f1, f2,
    delete_released _ c fuel' hh2 f1⟩

/-- C7 (as amended): `http2_session_delete` never writes `connection->h2`. After a teardown of
a well-formed connection, be it a direct call, the internal teardown of a failing
`MHD_http2_send_preface`, or the internal teardown of `http2_handle_write` (no interest left,
or flush failed), the connection still points to the released connection object, and a
further call of `http2_session_delete` reads through that pointer: it is an invalid access,
neither a rejection nor a no-op. Teardown is therefore to be run exactly once. -/
theorem teardown_leaves_dangling_pointer (K : Consts) (E : Engine) (fuel fuel' : Nat)
    (st : State) (c s : Nat) (l lf : List (Nat × Int))
    (hh2 : st.connection.h2 = some c)
    (hv : valid st.heap c s l = true)
    (hvf : valid (E.nghttp2_session_send st.heap s).2 c s lf = true)
    (hfuel : l.length < fuel) (hfuelf : lf.length < fuel) :
    (∃ st', http2_session_delete fuel st = Except.ok st' ∧ st'.connection.h2 = some c ∧
      st'.heap c = none ∧ st'.heap s = none ∧
      http2_session_delete fuel' st' = Except.error Fault.invalid_access) ∧
    (E.nghttp2_submit_settings st.heap s ≠ 0 ∨ (E.nghttp2_session_send st.heap s).1 ≠ 0 →
      ∃ st', MHD_http2_send_preface K E fuel st = Except.ok (K.MHD_NO, st') ∧
        st'.connection.h2 = some c ∧ st'.heap c = none ∧
        http2_session_delete fuel' st' = Except.error Fault.invalid_access) ∧
    ((E.nghttp2_session_want_read st.heap s = 0 ∧ E.nghttp2_session_want_write st.heap s = 0) ∨
        (E.nghttp2_session_send st.heap s).1 ≠ 0 →
      ∃ st', http2_handle_write E fuel st = Except.ok st' ∧
        st'.connection.h2 = some c ∧ st'.heap c = none ∧
        http2_session_delete fuel' st' = Except.error Fault.invalid_access) := by
  have hA := delete_then_fault st c s l fuel fuel' hh2 hv hfuel
  have hB := delete_then_fault ⟨st.connection, st.heap, st.pool,
    st.trace ++ [Event.nghttp2_submit_settings s]⟩ c s l fuel fuel' hh2 hv hfuel
  have hC := delete_then_fault ⟨st.connection, (E.nghttp2_session_send st.heap s).2, st.pool,
    st.trace ++ [Event.nghttp2_submit_settings s, Event.nghttp2_session_send s]⟩ c s lf fuel fuel'
    hh2 hvf hfuelf
  have hD := delete_then_fault ⟨st.connection, (E.nghttp2_session_send st.heap s).2, st.pool,
    st.trace ++ [Event.nghttp2_session_send s]⟩ c s lf fuel fuel' hh2 hvf hfuelf
  refine ⟨hA, ?_, ?_⟩
  · intro hfail
    rw [send_preface_eq K E fuel st c s l hh2 hv]
    by_cases h1 : E.nghttp2_submit_settings st.heap s = 0
    · have h2 : (E.nghttp2_session_send st.heap s).1 ≠ 0 := by
        rcases hfail with h | h
        · exact absurd h1 h
        · exact h
      rw [if_neg (not_not.2 h1), if_pos h2]
      obtain ⟨st', hrun, h3, h4, _, h5⟩ := hC
      exact ⟨st', by rw [hrun]; rfl, h3, h4, h5⟩
    · rw [if_pos h1]
      obtain ⟨st', hrun, h3, h4, _, h5⟩ := hB
      exact ⟨st', by rw [hrun]; rfl, h3, h4, h5⟩
  · intro hfail
    rw [handle_write_eq E fuel st c s l hh2 hv]
    by_cases hw : E.nghttp2_session_want_read st.heap s = 0 ∧
        E.nghttp2_session_want_write st.heap s = 0
    · rw [if_pos hw]
      obtain ⟨st', hrun, h3, h4, _, h5⟩ := hA
      exact ⟨st', hrun, h3, h4, h5⟩
    · have h2 : (E.nghttp2_session_send st.heap s).1 ≠ 0 := by
        rcases hfail with h | h
        · exact absurd h hw
        · exact h
      rw [if_neg hw, if_pos h2]
      obtain ⟨st', hrun, h3, h4, _, h5⟩ := hD
      exact ⟨st', hrun, h3, h4, h5⟩

theorem teardown_leaves_dangling_pointer_witness :
    ((ex_state 0).connection.h2 = some 1 ∧
      valid (ex_state 0).heap 1 2 [(11, 3), (10, 1)] = true ∧
      valid ((ex_engine 0 (-1)).nghttp2_session_send (ex_state 0).heap 2).2 1 2
        [(11, 3), (10, 1)] = true ∧
      [((11 : Nat), (3 : Int)), (10, 1)].length < 3) ∧
    ∃ st', http2_session_delete 3 (ex_state 0) = Except.ok st' ∧ st'.connection.h2 = some 1 ∧
      st'.heap 1 = none ∧ st'.heap 2 = none ∧
      http2_session_delete 3 st' = Except.error Fault.invalid_access :=
  ⟨⟨rfl, by decide, by decide, by decide⟩,
    (teardown_leaves_dangling_pointer std_consts (ex_engine 0 (-1)) 3 3 (ex_state 0) 1 2
      [(11, 3), (10, 1)] [(11, 3), (10, 1)] rfl (by decide) (by decide) (by decide)
      (by decide)).1⟩

/-- C7 (counterexample): after one teardown of the example connection its `h2` field still
holds the address of the released connection object, and a second teardown is neither rejected
nor a no-op: it is an access to released memory. -/
theorem second_teardown_reads_released_memory :
    (http2_session_delete 3 (ex_state 0)).map
        (fun st => (st.connection.h2, (st.heap 1).isSome, (st.heap 2).isSome, st.trace))
      = Except.ok (some 1, false, false,
          [Event.nghttp2_session_del 2, Event.free 11, Event.free 10, Event.free 1]) ∧
    ((http2_session_delete 3 (ex_state 0) >>= http2_session_delete 3).map
        (fun st => st.trace)) = Except.error Fault.invalid_access :=
  ⟨rfl, rfl⟩

/-! ## Outbound bytes -/

/-- C8 (evaluation at the failing input): ten bytes are ready, the host's send primitive
accepts four of them; `send_callback` passes the ten bytes to the primitive once and reports
ten bytes, not four, to the framing engine. -/
theorem send_callback_reports_full_length :
    (ex_state 0).connection.send_cls [1, 2, 3, 4, 5, 6, 7, 8, 9, 10] = 4 ∧
    (send_callback (ex_state 0) [1, 2, 3, 4, 5, 6, 7, 8, 9, 10]).map
        (fun r => (r.1, r.2.trace))
      = Except.ok (10, [Event.send_cls [1, 2, 3, 4, 5, 6, 7, 8, 9, 10]]) :=
  ⟨by decide, rfl⟩

theorem send_callback_eq (st : State) (data : List Nat) (hlen : data.length < 2 ^ 63) :
    send_callback st data =
      Except.ok ((data.length : Int), { st with trace := st.trace ++ [Event.send_cls data] }) := by
  have h1 : data.length % 2 ^ 64 = data.length := Nat.mod_eq_of_lt (by omega)
  unfold send_callback to_ssize_t
  rw [h1, if_pos hlen]
  rfl

/-! ## Read and idle processing -/

theorem session_recv_empty (E : Engine) (st : State) (hk : st.connection.read_buffer_offset = 0) :
    http2_session_recv E st = Except.ok (-1, st) := by
  simp [http2_session_recv, hk]

theorem session_recv_fed (E : Engine) (st : State) (c s : Nat) (l lr : List (Nat × Int))
    (hh2 : st.connection.h2 = some c) (hv : valid st.heap c s l = true)
    (hk : st.connection.read_buffer_offset ≠ 0)
    (hvr : valid (E.nghttp2_session_mem_recv st.heap s
      (bytes_at st.pool st.connection.read_buffer st.connection.read_buffer_offset)).2 c s lr
        = true) :
    ∃ rv st', http2_session_recv E st = Except.ok (rv, st') ∧
      st'.connection.read_buffer_offset = 0 ∧
      st'.connection.read_buffer
        = st.connection.read_buffer + st.connection.read_buffer_offset ∧
      st'.connection.h2 = some c ∧
      ∃ tail, st'.trace = st.trace ++ Event.nghttp2_session_mem_recv s
          (bytes_at st.pool st.connection.read_buffer st.connection.read_buffer_offset) :: tail ∧
        ((E.nghttp2_session_mem_recv st.heap s
            (bytes_at st.pool st.connection.read_buffer st.connection.read_buffer_offset)).1 < 0 →
          rv = -1 ∧ tail = [] ∧
          st'.heap = (E.nghttp2_session_mem_recv st.heap s
            (bytes_at st.pool st.connection.read_buffer st.connection.read_buffer_offset)).2) ∧
        (¬ (E.nghttp2_session_mem_recv st.heap s
            (bytes_at st.pool st.connection.read_buffer st.connection.read_buffer_offset)).1 < 0 →
          tail = [Event.nghttp2_session_send s]) := by
  have hk' : ¬ (0 = st.connection.read_buffer_offset) := fun e => hk e.symm
  unfold http2_session_recv
  rw [if_neg hk']
  simp only [hh2, deref, pure_eq_ok, ok_bind, session_of_ok hv]
  by_cases hr : (E.nghttp2_session_mem_recv st.heap s
      (bytes_at st.pool st.connection.read_buffer st.connection.read_buffer_offset)).1 < 0
  · rw [if_pos hr]
    exact ⟨_, _, rfl, by simp, rfl, rfl, [], rfl, fun _ => ⟨rfl, rfl, rfl⟩,
      fun h => absurd hr h⟩
  · rw [if_neg hr]
    rw [session_send_ok E _ c s lr hvr]
    simp only [ok_bind]
    split_ifs
    all_goals
      exact ⟨_, _, rfl, by simp, rfl, rfl, [Event.nghttp2_session_send s], by simp,
        fun h => absurd h hr, fun _ => rfl⟩

theorem bytes_at_length (pool : Nat → Nat) (data datalen : Nat) :
    (bytes_at pool data datalen).length = datalen := by
  simp [bytes_at]

/-- C9: in a build with HTTPS support, one call of `http2_handle_idle` attempts the feed
(runs `http2_session_recv`, once) if and only if the connection is not suspended and the TLS
layer is not mid-handshake; when suspended or mid-handshake it only sets `in_idle`, so nothing
is fed and the read buffer is untouched. When the feed is attempted on a live session with
`k > 0` buffered bytes, the call returns, exactly those `k` bytes are handed to the engine in
one `nghttp2_session_mem_recv` call, `read_buffer_offset` becomes 0, and no second feed
follows (the only later event is the flush); with nothing buffered the engine is not fed. -/
theorem handle_idle_feeds_once (K : Consts) (E : Engine) (st : State)
    (hK : K.HTTPS_SUPPORT = true) :
    (st.connection.suspended = false ∧
        (st.connection.tls_state = K.MHD_TLS_CONN_NO_TLS ∨
          ¬ (K.MHD_TLS_CONN_INIT ≤ st.connection.tls_state ∧
            st.connection.tls_state < K.MHD_TLS_CONN_CONNECTED)) →
      http2_handle_idle K E st =
        (http2_session_recv E
          { st with connection := { st.connection with in_idle := true } }).map Prod.snd) ∧
    (¬ (st.connection.suspended = false ∧
        (st.connection.tls_state = K.MHD_TLS_CONN_NO_TLS ∨
          ¬ (K.MHD_TLS_CONN_INIT ≤ st.connection.tls_state ∧
            st.connection.tls_state < K.MHD_TLS_CONN_CONNECTED))) →
      http2_handle_idle K E st =
        Except.ok { st with connection := { st.connection with in_idle := true } }) ∧
    (st.connection.read_buffer_offset = 0 →
      http2_handle_idle K E st =
        Except.ok { st with connection := { st.connection with in_idle := true } }) ∧
    (∀ (c s : Nat) (l lr : List (Nat × Int)),
      st.connection.suspended = false ∧
        (st.connection.tls_state = K.MHD_TLS_CONN_NO_TLS ∨
          ¬ (K.MHD_TLS_CONN_INIT ≤ st.connection.tls_state ∧
            st.connection.tls_state < K.MHD_TLS_CONN_CONNECTED)) →
      0 < st.connection.read_buffer_offset →
      st.connection.h2 = some c → valid st.heap c s l = true →
      valid (E.nghttp2_session_mem_recv st.heap s
        (bytes_at st.pool st.connection.read_buffer st.connection.read_buffer_offset)).2 c s lr
          = true →
      ∃ st' tail, http2_handle_idle K E st = Except.ok st' ∧
        st'.connection.read_buffer_offset = 0 ∧
        st'.connection.read_buffer
          = st.connection.read_buffer + st.connection.read_buffer_offset ∧
        st'.trace = st.trace ++ Event.nghttp2_session_mem_recv s
          (bytes_at st.pool st.connection.read_buffer st.connection.read_buffer_offset) :: tail ∧
        (tail = [] ∨ tail = [Event.nghttp2_session_send s]) ∧
        (bytes_at st.pool st.connection.read_buffer st.connection.read_buffer_offset).length
          = st.connection.read_buffer_offset) := by
  have hfeed : st.connection.suspended = false ∧
        (st.connection.tls_state = K.MHD_TLS_CONN_NO_TLS ∨
          ¬ (K.MHD_TLS_CONN_INIT ≤ st.connection.tls_state ∧
            st.connection.tls_state < K.MHD_TLS_CONN_CONNECTED)) →
      http2_handle_idle K E st =
        (http2_session_recv E
          { st with connection := { st.connection with in_idle := true } }).map Prod.snd := by
    rintro ⟨hsus, htls⟩
    have hgate : ¬ ((K.HTTPS_SUPPORT = true) ∧ K.MHD_TLS_CONN_NO_TLS ≠ st.connection.tls_state ∧
        (K.MHD_TLS_CONN_INIT ≤ st.connection.tls_state ∧
          K.MHD_TLS_CONN_CONNECTED > st.connection.tls_state)) := by
      rintro ⟨_, h1, h2⟩
      rcases htls with h | h
      · exact h1 h.symm
      · exact h h2
    unfold http2_handle_idle
    simp only [hsus, Bool.not_false, if_true]
    rw [if_neg hgate]
    cases http2_session_recv E
      { st with connection := { st.connection with in_idle := true } } with
    | error e => rfl
    | ok r => rfl
  have hskip : ¬ (st.connection.suspended = false ∧
        (st.connection.tls_state = K.MHD_TLS_CONN_NO_TLS ∨
          ¬ (K.MHD_TLS_CONN_INIT ≤ st.connection.tls_state ∧
            st.connection.tls_state < K.MHD_TLS_CONN_CONNECTED))) →
      http2_handle_idle K E st =
        Except.ok { st with connection := { st.connection with in_idle := true } } := by
    intro hno
    unfold http2_handle_idle
    by_cases hsus : st.connection.suspended = false
    · have hgate : (K.HTTPS_SUPPORT = true) ∧ K.MHD_TLS_CONN_NO_TLS ≠ st.connection.tls_state ∧
          (K.MHD_TLS_CONN_INIT ≤ st.connection.tls_state ∧
            K.MHD_TLS_CONN_CONNECTED > st.connection.tls_state) := by
        refine ⟨hK, ?_, ?_⟩
        · intro h
          exact hno ⟨hsus, Or.inl h.symm⟩
        · by_contra h
          exact hno ⟨hsus, Or.inr h⟩
      simp only [hsus, Bool.not_false, if_true]
      rw [if_pos hgate]
      rfl
    · have hsus' : st.connection.suspended = true := by
        cases hb : st.connection.suspended with
        | true => rfl
        | false => exact absurd hb hsus
      simp only [hsus', Bool.not_true]
      rfl
  refine ⟨hfeed, hskip, ?_, ?_⟩
  · intro hk
    by_cases hf : st.connection.suspended = false ∧
        (st.connection.tls_state = K.MHD_TLS_CONN_NO_TLS ∨
          ¬ (K.MHD_TLS_CONN_INIT ≤ st.connection.tls_state ∧
            st.connection.tls_state < K.MHD_TLS_CONN_CONNECTED))
    · rw [hfeed hf, session_recv_empty E
        ⟨{ st.connection with in_idle := true }, st.heap, st.pool, st.trace⟩ hk]
      rfl
    · exact hskip hf
  · intro c s l lr hf hk hh2 hv hvr
    rw [hfeed hf]
    obtain ⟨rv, st', hrun, h1, h2, _, tail, h4, h5, h6⟩ :=
      session_recv_fed E ⟨{ st.connection with in_idle := true }, st.heap, st.pool, st.trace⟩
        c s l lr hh2 hv (Nat.pos_iff_ne_zero.1 hk) hvr
    refine ⟨st', tail, by rw [hrun]; rfl, h1, h2, h4, ?_, bytes_at_length _ _ _⟩
    by_cases hr : (E.nghttp2_session_mem_recv st.heap s
        (bytes_at st.pool st.connection.read_buffer st.connection.read_buffer_offset)).1 < 0
    · exact Or.inl (h5 hr).2.1
    · exact Or.inr (h6 hr)

theorem handle_idle_feeds_once_witness :
    std_consts.HTTPS_SUPPORT = true ∧
    ∃ st' tail, http2_handle_idle std_consts (ex_engine 3 0) (ex_state 3) = Except.ok st' ∧
      st'.connection.read_buffer_offset = 0 ∧
      st'.connection.read_buffer
        = (ex_state 3).connection.read_buffer + (ex_state 3).connection.read_buffer_offset ∧
      st'.trace = (ex_state 3).trace ++ Event.nghttp2_session_mem_recv 2
        (bytes_at (ex_state 3).pool (ex_state 3).connection.read_buffer
          (ex_state 3).connection.read_buffer_offset) :: tail ∧
      (tail = [] ∨ tail = [Event.nghttp2_session_send 2]) ∧
      (bytes_at (ex_state 3).pool (ex_state 3).connection.read_buffer
          (ex_state 3).connection.read_buffer_offset).length
        = (ex_state 3).connection.read_buffer_offset :=
  ⟨rfl, (handle_idle_feeds_once std_consts (ex_engine 3 0) (ex_state 3) rfl).2.2.2 1 2
    [(11, 3), (10, 1)] [(11, 3), (10, 1)] ⟨rfl, Or.inl rfl⟩ (by decide) rfl (by decide)
    (by decide)⟩

/-- C4 (evaluation at the failing input): three bytes are buffered on a plain, not suspended
connection. When the engine rejects them (`nghttp2_session_mem_recv` gives -903),
`http2_session_recv` reports -1 but `http2_handle_idle` returns with nothing released: the
only event is the feed, and connection object, session and registry are all still live. The
same happens when the feed succeeds and the following flush fails. -/
theorem handle_idle_drops_feed_error :
    (http2_session_recv (ex_engine (-903) 0) (ex_state 3)).map Prod.fst = Except.ok (-1) ∧
    (http2_handle_idle std_consts (ex_engine (-903) 0) (ex_state 3)).map
        (fun st => (st.trace, st.connection.h2, valid st.heap 1 2 [(11, 3), (10, 1)]))
      = Except.ok ([Event.nghttp2_session_mem_recv 2 [0, 1, 2]], some 1, true) ∧
    (http2_session_recv (ex_engine 3 (-1)) (ex_state 3)).map Prod.fst = Except.ok (-1) ∧
    (http2_handle_idle std_consts (ex_engine 3 (-1)) (ex_state 3)).map
        (fun st => (st.trace, st.connection.h2, valid st.heap 1 2 [(11, 3), (10, 1)]))
      = Except.ok ([Event.nghttp2_session_mem_recv 2 [0, 1, 2], Event.nghttp2_session_send 2],
          some 1, true) :=
  ⟨rfl, rfl, rfl, rfl⟩

end MHD
